import Mathlib

/- Shallow embedding of the staking / AMM engine implemented in
`pallets/subtensor/src/staking/stake_utils.rs`.

Machine integers are modelled as `Nat` (`u64`, `u16`, `u128`) and the
substrate-fixed fixed-point types by their raw integer representation:

* `U110F18` : raw `Nat`, value = raw / 2^18, saturating at raw 2^128 - 1;
* `U96F32`  : raw `Nat`, value = raw / 2^32, saturating at raw 2^128 - 1;
* `I96F32`  : raw `Int`, value = raw / 2^32, saturating at raw ±2^127;
* `U64F64`  : appears only behind the share-pool interface, modelled with `Rat`.

Multiplication and division of the fixed types truncate extra fractional
bits toward negative infinity (the substrate-fixed wide-product / shift
implementation); `saturating_*` operations clamp to the representable
range, and `safe_div` (and `checked_div(..).unwrap_or(0)`) map a zero
divisor or an out-of-range quotient to zero.  Storage maps are modelled
as total functions inside `ChainState`; the fields model `u64`-valued
storage, so claims whose truth needs the `u64` range carry that bound as
an explicit hypothesis. -/

namespace Subtensor

set_option maxRecDepth 2000

def u64Max : Nat := 2 ^ 64 - 1

def u128Max : Nat := 2 ^ 128 - 1

/- ### U110F18 raw arithmetic (18 fractional bits, 128-bit unsigned) -/

def f18 : Nat := 2 ^ 18

/- `U110F18::saturating_from_num` of a `u64`: exact, the raw value fits. -/
def fx18OfU64 (n : Nat) : Nat := n * f18

def fx18Mul (a b : Nat) : Nat := min (a * b / f18) u128Max

def fx18Add (a b : Nat) : Nat := min (a + b) u128Max

/- `safe_div` / `checked_div(..).unwrap_or(0)`: zero divisor or a quotient
out of range yields zero. -/
def fx18SafeDiv (a b : Nat) : Nat :=
  if b = 0 then 0 else if u128Max < a * f18 / b then 0 else a * f18 / b

/- `saturating_to_num::<u64>()`: truncate the fraction, clamp to `u64`. -/
def fx18ToU64 (a : Nat) : Nat := min (a / f18) u64Max

/- ### U96F32 raw arithmetic (32 fractional bits, 128-bit unsigned) -/

def f32 : Nat := 2 ^ 32

def fx32One : Nat := f32

def fx32OfU64 (n : Nat) : Nat := n * f32

def fx32Mul (a b : Nat) : Nat := min (a * b / f32) u128Max

def fx32Add (a b : Nat) : Nat := min (a + b) u128Max

def fx32SafeDiv (a b : Nat) : Nat :=
  if b = 0 then 0 else if u128Max < a * f32 / b then 0 else a * f32 / b

def fx32ToU64 (a : Nat) : Nat := min (a / f32) u64Max

/- ### I96F32 raw arithmetic (32 fractional bits, 128-bit signed) -/

def i96Max : Int := 2 ^ 127 - 1

def i96Min : Int := -(2 ^ 127)

def i96Sat (x : Int) : Int := max i96Min (min x i96Max)

/- `I96F32::saturating_from_num` of a `U96F32`. -/
def i96OfU96 (a : Nat) : Int := min (a : Int) i96Max

/- `U96F32::saturating_from_num` of an `I96F32`: negative values clamp to 0. -/
def u96OfI96 (a : Int) : Nat := a.toNat

def i96Mul (a b : Int) : Int := i96Sat ((a * b).fdiv (f32 : Int))

def i96Add (a b : Int) : Int := i96Sat (a + b)

def i96SafeDiv (a b : Int) : Int :=
  if b = 0 then 0
  else
    if (a * (f32 : Int)).fdiv b < i96Min ∨ i96Max < (a * (f32 : Int)).fdiv b then 0
    else (a * (f32 : Int)).fdiv b

/- `saturating_abs`. -/
def i96Abs (a : Int) : Int := i96Sat |a|

/- `ceil()`: round the value up to an integer (result is an integer-valued
fixed-point number). -/
def i96Ceil (a : Int) : Int := ((a + ((f32 : Int) - 1)).fdiv (f32 : Int)) * (f32 : Int)

/- `to_num::<u32>()` on a nonnegative integer-valued fixed-point number
(the only use site converts a small ceiling). -/
def i96ToU32 (a : Int) : Nat := (a.fdiv (f32 : Int)).toNat

/- ### Chain storage state

Each field models the storage map (or config constant) of the same name;
`Nat`-valued fields model `u64` storage (u128 for `subnetVolume`, `u16`
for `subnetMechanism`), `Int`-valued fields model `I96F32` raws. -/

structure ChainState where
  subnetTAO : Nat → Nat
  subnetAlphaIn : Nat → Nat
  subnetAlphaOut : Nat → Nat
  subnetMechanism : Nat → Nat
  subnetMovingPrice : Nat → Int
  subnetVolume : Nat → Nat
  totalStake : Nat
  liquidityScaleMax : Nat → Nat
  minimumPoolLiquidity : Nat
  defaultMinStake : Nat
  defaultStakingFee : Nat
  subnetExistsMap : Nat → Bool
  hotkeyExistsMap : Nat → Bool
  canRemoveBalance : Nat → Nat → Bool
  totalHotkeyAlpha : Nat → Nat → Nat
  parentKeys : Nat → Nat → List (Nat × Nat)
  childKeys : Nat → Nat → List (Nat × Nat)
  alphaDividendsPerSubnet : Nat → Nat → Nat
  totalHotkeyAlphaLastEpoch : Nat → Nat → Nat
  totalHotkeyShares : Nat → Nat → Rat
  alphaShares : Nat → Nat → Nat → Option Rat

/- Point update of a storage map. -/
def updMap (m : Nat → Nat) (k v : Nat) : Nat → Nat :=
  fun i => if i = k then v else m i

def get_root_netuid : Nat := 0

/- ### AMM swaps (`sim_swap_tao_for_alpha`, `swap_tao_for_alpha`, ...) -/

/- The simulated new alpha reserve of a staking swap:
`k / (tao_reserves + tao)` computed in `U110F18` (raw value). -/
def new_alpha_reserves_raw (s : ChainState) (netuid tao : Nat) : Nat :=
  let tao_reserves := fx18OfU64 (s.subnetTAO netuid)
  let alpha_reserves := fx18OfU64 (s.subnetAlphaIn netuid)
  let k := fx18Mul alpha_reserves tao_reserves
  fx18SafeDiv k (fx18Add tao_reserves (fx18OfU64 tao))

/- The simulated new tao reserve of an unstaking swap:
`k / (alpha_reserves + alpha)` computed in `U110F18` (raw value). -/
def new_tao_reserves_raw (s : ChainState) (netuid alpha : Nat) : Nat :=
  let tao_reserves := fx18OfU64 (s.subnetTAO netuid)
  let alpha_reserves := fx18OfU64 (s.subnetAlphaIn netuid)
  let k := fx18Mul alpha_reserves tao_reserves
  fx18SafeDiv k (fx18Add alpha_reserves (fx18OfU64 alpha))

def sim_swap_tao_for_alpha (s : ChainState) (netuid tao : Nat) : Option Nat :=
  if s.subnetMechanism netuid = 1 then
    let alpha_reserves := fx18OfU64 (s.subnetAlphaIn netuid)
    let new_alpha_reserves := new_alpha_reserves_raw s netuid tao
    if fx18OfU64 s.minimumPoolLiquidity ≤ new_alpha_reserves then
      some (fx18ToU64 (alpha_reserves - new_alpha_reserves))
    else none
  else some tao

def sim_swap_alpha_for_tao (s : ChainState) (netuid alpha : Nat) : Option Nat :=
  if s.subnetMechanism netuid = 1 then
    let tao_reserves := fx18OfU64 (s.subnetTAO netuid)
    let new_tao_reserves := new_tao_reserves_raw s netuid alpha
    if fx18OfU64 s.minimumPoolLiquidity ≤ new_tao_reserves then
      some (fx18ToU64 (tao_reserves - new_tao_reserves))
    else none
  else some alpha

/- `u64::saturating_add` / `u128::saturating_add`. -/
def satAdd64 (a b : Nat) : Nat := min (a + b) u64Max

def satAdd128 (a b : Nat) : Nat := min (a + b) u128Max

def swap_tao_for_alpha (s : ChainState) (netuid tao : Nat) : Nat × ChainState :=
  match sim_swap_tao_for_alpha s netuid tao with
  | some alpha =>
      (alpha,
        { s with
          subnetAlphaIn := updMap s.subnetAlphaIn netuid (s.subnetAlphaIn netuid - alpha)
          subnetAlphaOut := updMap s.subnetAlphaOut netuid (satAdd64 (s.subnetAlphaOut netuid) alpha)
          subnetTAO := updMap s.subnetTAO netuid (satAdd64 (s.subnetTAO netuid) tao)
          totalStake := satAdd64 s.totalStake tao
          subnetVolume := updMap s.subnetVolume netuid (satAdd128 (s.subnetVolume netuid) tao) })
  | none => (0, s)

def swap_alpha_for_tao (s : ChainState) (netuid alpha : Nat) : Nat × ChainState :=
  match sim_swap_alpha_for_tao s netuid alpha with
  | some tao =>
      (tao,
        { s with
          subnetAlphaIn := updMap s.subnetAlphaIn netuid (satAdd64 (s.subnetAlphaIn netuid) alpha)
          subnetAlphaOut := updMap s.subnetAlphaOut netuid (s.subnetAlphaOut netuid - alpha)
          subnetTAO := updMap s.subnetTAO netuid (s.subnetTAO netuid - tao)
          totalStake := s.totalStake - tao
          subnetVolume := updMap s.subnetVolume netuid (satAdd128 (s.subnetVolume netuid) tao) })
  | none => (0, s)

/-- C1: on a Dynamic-mechanism subnet, a swap whose simulated new reserve
(`k` divided by the incremented opposite reserve) would fall below
`DefaultMinimumPoolLiquidity` is rejected: the simulation returns `none`,
the swap function returns 0, and `SubnetTAO`, `SubnetAlphaIn`,
`SubnetAlphaOut`, `TotalStake` and `SubnetVolume` are all unmodified.
This covers both swap directions. -/
theorem swap_rejected_below_min_liquidity (s : ChainState) (netuid tao alpha : Nat)
    (hmech : s.subnetMechanism netuid = 1) :
    (new_alpha_reserves_raw s netuid tao < fx18OfU64 s.minimumPoolLiquidity →
      sim_swap_tao_for_alpha s netuid tao = none ∧
      swap_tao_for_alpha s netuid tao = (0, s) ∧
      (swap_tao_for_alpha s netuid tao).2.subnetTAO = s.subnetTAO ∧
      (swap_tao_for_alpha s netuid tao).2.subnetAlphaIn = s.subnetAlphaIn ∧
      (swap_tao_for_alpha s netuid tao).2.subnetAlphaOut = s.subnetAlphaOut ∧
      (swap_tao_for_alpha s netuid tao).2.totalStake = s.totalStake ∧
      (swap_tao_for_alpha s netuid tao).2.subnetVolume = s.subnetVolume) ∧
    (new_tao_reserves_raw s netuid alpha < fx18OfU64 s.minimumPoolLiquidity →
      sim_swap_alpha_for_tao s netuid alpha = none ∧
      swap_alpha_for_tao s netuid alpha = (0, s) ∧
      (swap_alpha_for_tao s netuid alpha).2.subnetTAO = s.subnetTAO ∧
      (swap_alpha_for_tao s netuid alpha).2.subnetAlphaIn = s.subnetAlphaIn ∧
      (swap_alpha_for_tao s netuid alpha).2.subnetAlphaOut = s.subnetAlphaOut ∧
      (swap_alpha_for_tao s netuid alpha).2.totalStake = s.totalStake ∧
      (swap_alpha_for_tao s netuid alpha).2.subnetVolume = s.subnetVolume) := by
  constructor
  · intro hlow
    have hsim : sim_swap_tao_for_alpha s netuid tao = none := by
      unfold sim_swap_tao_for_alpha
      rw [if_pos hmech, if_neg (by omega)]
    refine ⟨hsim, ?_⟩
    unfold swap_tao_for_alpha
    rw [hsim]
    exact ⟨rfl, rfl, rfl, rfl, rfl, rfl⟩
  · intro hlow
    have hsim : sim_swap_alpha_for_tao s netuid alpha = none := by
      unfold sim_swap_alpha_for_tao
      rw [if_pos hmech, if_neg (by omega)]
    refine ⟨hsim, ?_⟩
    unfold swap_alpha_for_tao
    rw [hsim]
    exact ⟨rfl, rfl, rfl, rfl, rfl, rfl⟩

/- A tiny Dynamic-subnet state used as concrete witness input. -/
def witnessPoolState : ChainState where
  subnetTAO := fun n => if n = 1 then 1 else 0
  subnetAlphaIn := fun n => if n = 1 then 1 else 0
  subnetAlphaOut := fun _ => 0
  subnetMechanism := fun n => if n = 1 then 1 else 0
  subnetMovingPrice := fun _ => 0
  subnetVolume := fun _ => 0
  totalStake := 0
  liquidityScaleMax := fun _ => 0
  minimumPoolLiquidity := 10
  defaultMinStake := 0
  defaultStakingFee := 0
  subnetExistsMap := fun _ => true
  hotkeyExistsMap := fun _ => true
  canRemoveBalance := fun _ _ => true
  totalHotkeyAlpha := fun _ _ => 0
  parentKeys := fun _ _ => []
  childKeys := fun _ _ => []
  alphaDividendsPerSubnet := fun _ _ => 0
  totalHotkeyAlphaLastEpoch := fun _ _ => 0
  totalHotkeyShares := fun _ _ => 0
  alphaShares := fun _ _ _ => none

theorem swap_rejected_below_min_liquidity_witness :
    witnessPoolState.subnetMechanism 1 = 1 ∧
    new_alpha_reserves_raw witnessPoolState 1 1 < fx18OfU64 witnessPoolState.minimumPoolLiquidity ∧
    sim_swap_tao_for_alpha witnessPoolState 1 1 = none := by
  refine ⟨by decide, by decide, ?_⟩
  exact ((swap_rejected_below_min_liquidity witnessPoolState 1 1 1 (by decide)).1
    (by decide)).1

/- The Dynamic subnet of the concrete C5 scenario: `tao_reserve = 1_000_000`,
`alpha_reserve_in = 1_000_000` on netuid 1, with the minimum-liquidity
floor left as a parameter. -/
def scenarioState (minLiq : Nat) : ChainState :=
  { witnessPoolState with
    subnetTAO := fun n => if n = 1 then 1000000 else 0
    subnetAlphaIn := fun n => if n = 1 then 1000000 else 0
    minimumPoolLiquidity := minLiq }

/-- C5: on a Dynamic subnet with `tao_reserve = 1_000_000` and
`alpha_reserve_in = 1_000_000` (`k = 10^12`), provided the
minimum-liquidity floor does not exceed the resulting (simulated) reserve
`k / 1_001_000`, swapping 1000 tao with zero fee returns exactly 999 alpha
and leaves `SubnetTAO = 1_001_000`, `SubnetAlphaIn = 999_001`. -/
theorem stake_scenario_swap_result (minLiq : Nat)
    (hliq : fx18OfU64 minLiq ≤ new_alpha_reserves_raw (scenarioState minLiq) 1 1000) :
    (swap_tao_for_alpha (scenarioState minLiq) 1 1000).1 = 999 ∧
    (swap_tao_for_alpha (scenarioState minLiq) 1 1000).2.subnetTAO 1 = 1001000 ∧
    (swap_tao_for_alpha (scenarioState minLiq) 1 1000).2.subnetAlphaIn 1 = 999001 := by
  have hmech : (scenarioState minLiq).subnetMechanism 1 = 1 := rfl
  have ea : (scenarioState minLiq).subnetAlphaIn 1 = 1000000 := rfl
  have et : (scenarioState minLiq).subnetTAO 1 = 1000000 := rfl
  have e2 : new_alpha_reserves_raw (scenarioState minLiq) 1 1000 = 261882117882 := by
    show fx18SafeDiv
        (fx18Mul (fx18OfU64 ((scenarioState minLiq).subnetAlphaIn 1))
          (fx18OfU64 ((scenarioState minLiq).subnetTAO 1)))
        (fx18Add (fx18OfU64 ((scenarioState minLiq).subnetTAO 1)) (fx18OfU64 1000)) =
      261882117882
    rw [ea, et]
    rfl
  have hliq' : fx18OfU64 ((scenarioState minLiq).minimumPoolLiquidity) ≤
      new_alpha_reserves_raw (scenarioState minLiq) 1 1000 := hliq
  have hsim : sim_swap_tao_for_alpha (scenarioState minLiq) 1 1000 = some 999 := by
    unfold sim_swap_tao_for_alpha
    rw [if_pos hmech]
    show (if fx18OfU64 ((scenarioState minLiq).minimumPoolLiquidity) ≤
        new_alpha_reserves_raw (scenarioState minLiq) 1 1000 then
        some (fx18ToU64 (fx18OfU64 ((scenarioState minLiq).subnetAlphaIn 1) -
          new_alpha_reserves_raw (scenarioState minLiq) 1 1000))
      else none) = some 999
    rw [if_pos hliq', ea, e2]
    rfl
  have hswap : swap_tao_for_alpha (scenarioState minLiq) 1 1000 =
      (999,
        { scenarioState minLiq with
          subnetAlphaIn := updMap (scenarioState minLiq).subnetAlphaIn 1
            ((scenarioState minLiq).subnetAlphaIn 1 - 999)
          subnetAlphaOut := updMap (scenarioState minLiq).subnetAlphaOut 1
            (satAdd64 ((scenarioState minLiq).subnetAlphaOut 1) 999)
          subnetTAO := updMap (scenarioState minLiq).subnetTAO 1
            (satAdd64 ((scenarioState minLiq).subnetTAO 1) 1000)
          totalStake := satAdd64 (scenarioState minLiq).totalStake 1000
          subnetVolume := updMap (scenarioState minLiq).subnetVolume 1
            (satAdd128 ((scenarioState minLiq).subnetVolume 1) 1000) }) := by
    unfold swap_tao_for_alpha
    rw [hsim]
  refine ⟨?_, ?_, ?_⟩
  · rw [hswap]
  · rw [hswap]
    show updMap (scenarioState minLiq).subnetTAO 1
      (satAdd64 ((scenarioState minLiq).subnetTAO 1) 1000) 1 = 1001000
    unfold updMap
    rw [if_pos rfl, et]
    rfl
  · rw [hswap]
    show updMap (scenarioState minLiq).subnetAlphaIn 1
      ((scenarioState minLiq).subnetAlphaIn 1 - 999) 1 = 999001
    unfold updMap
    rw [if_pos rfl, ea]

theorem stake_scenario_swap_result_witness :
    fx18OfU64 0 ≤ new_alpha_reserves_raw (scenarioState 0) 1 1000 ∧
    (swap_tao_for_alpha (scenarioState 0) 1 1000).1 = 999 := by
  refine ⟨by decide, (stake_scenario_swap_result 0 (by decide)).1⟩

/- ### Spot price and moving price (`get_alpha_price`, `update_moving_price`) -/

def get_alpha_price (s : ChainState) (netuid : Nat) : Nat :=
  if netuid = get_root_netuid then fx32One
  else if s.subnetMechanism netuid = 0 then fx32One
  else if s.subnetAlphaIn netuid = 0 then 0
  else fx32SafeDiv (fx32OfU64 (s.subnetTAO netuid)) (fx32OfU64 (s.subnetAlphaIn netuid))

def get_moving_alpha_price (s : ChainState) (netuid : Nat) : Nat :=
  if netuid = get_root_netuid then fx32One
  else if s.subnetMechanism netuid = 0 then fx32One
  else u96OfI96 (s.subnetMovingPrice netuid)

/- ### EMA smoothing factor (`compute_alpha_for_ema`) -/

def compute_alpha_for_ema (l liquidity_scale_max : Nat) : Nat :=
  if liquidity_scale_max ≤ l then fx32One
  else
    let i_l_max := i96OfU96 liquidity_scale_max
    let i_l := i96OfU96 l
    let neg_one : Int := -(f32 : Int)
    let two : Int := 2 * (f32 : Int)
    let a := i96SafeDiv (7 * (f32 : Int)) two
    let b := neg_one
    let c := i96SafeDiv (3 * (f32 : Int)) two
    let d := i96Mul neg_one (4 * (f32 : Int))
    let x := i96Add (i96SafeDiv (i96Mul two i_l) i_l_max) neg_one
    let x_cubed := i96Mul (i96Mul x x) x
    let f_x := i96Add (i96Mul (i96Add (i96Mul (i96Add (i96Mul a x_cubed) b) x_cubed) c) x) d
    let abs_f_x := i96Abs f_x
    let exp_int := i96ToU32 (i96Ceil abs_f_x)
    let ten : Int := 10 * (f32 : Int)
    u96OfI96 ((fun al => i96SafeDiv al ten)^[exp_int] ((f32 : Int)))

/- The claim's normalisation step `x = 2*l/liquidity_scale_max - 1`, carried
out in the source's `I96F32` arithmetic. -/
def ema_norm_x (l liquidity_scale_max : Nat) : Int :=
  i96Add (i96SafeDiv (i96Mul (2 * (f32 : Int)) (i96OfU96 l)) (i96OfU96 liquidity_scale_max))
    (-(f32 : Int))

/- The claim's cubic `((7/2*x^3 - 1)*x^3 + 3/2)*x - 4`, carried out in the
source's `I96F32` arithmetic. -/
def ema_cubic (x : Int) : Int :=
  let x3 := i96Mul (i96Mul x x) x
  i96Add
    (i96Mul
      (i96Add
        (i96Mul (i96Add (i96Mul (i96SafeDiv (7 * (f32 : Int)) (2 * (f32 : Int))) x3) (-(f32 : Int)))
          x3)
        (i96SafeDiv (3 * (f32 : Int)) (2 * (f32 : Int))))
      x)
    (i96Mul (-(f32 : Int)) (4 * (f32 : Int)))

/- The claim's exponent `n`: the ceiling of the absolute value of the cubic. -/
def ema_exp (l liquidity_scale_max : Nat) : Nat :=
  i96ToU32 (i96Ceil (i96Abs (ema_cubic (ema_norm_x l liquidity_scale_max))))

theorem iter_tenth_div : ∀ (n a : Nat), a ≤ f32 →
    (fun al => i96SafeDiv al (10 * (f32 : Int)))^[n] ((a : Nat) : Int) = ((a / 10 ^ n : Nat) : Int) := by
  intro n
  induction n with
  | zero => intro a _; simp
  | succ n ih =>
      intro a ha
      rw [Function.iterate_succ_apply]
      have hstep : i96SafeDiv ((a : Int)) (10 * (f32 : Int)) = ((a / 10 : Nat) : Int) := by
        unfold i96SafeDiv
        have hne : (10 * (f32 : Int)) ≠ 0 := by norm_num [f32]
        rw [if_neg hne]
        have hdiv : ((a : Int) * (f32 : Int)).fdiv (10 * (f32 : Int)) = ((a / 10 : Nat) : Int) := by
          have h1 : ((a : Int) * (f32 : Int)) = ((a * f32 : Nat) : Int) := by push_cast; ring
          have h2 : (10 * (f32 : Int)) = ((10 * f32 : Nat) : Int) := by push_cast; ring
          rw [h1, h2, ← Int.ofNat_fdiv]
          congr 1
          have hf : 0 < f32 := by norm_num [f32]
          calc a * f32 / (10 * f32) = a * f32 / (f32 * 10) := by rw [Nat.mul_comm 10 f32]
            _ = a / 10 := by rw [← Nat.div_div_eq_div_mul, Nat.mul_div_cancel _ hf]
        rw [hdiv]
        rw [if_neg]
        push_neg
        constructor
        · have : (0 : Int) ≤ ((a / 10 : Nat) : Int) := Int.ofNat_nonneg _
          unfold i96Min
          omega
        · have h10 : ((a / 10 : Nat) : Int) ≤ (a : Int) := by
            exact_mod_cast Nat.div_le_self a 10
          have ha' : ((a : Nat) : Int) ≤ ((f32 : Nat) : Int) := by exact_mod_cast ha
          unfold i96Max
          have : ((f32 : Nat) : Int) ≤ 2 ^ 127 - 1 := by norm_num [f32]
          omega
      rw [hstep, ih (a / 10) (le_trans (Nat.div_le_self a 10) ha)]
      congr 1
      rw [Nat.div_div_eq_div_mul]
      rw [pow_succ]
      ring_nf

/-- C6: `compute_alpha_for_ema` returns 1 (`U96F32` raw `2^32`) whenever
`l >= liquidity_scale_max`; otherwise, with `x = 2*l/liquidity_scale_max - 1`
and `n` the ceiling of `|((7/2*x^3 - 1)*x^3 + 3/2)*x - 4|` (both computed in
the source's `I96F32` fixed-point arithmetic), it returns `10^(-n)`
represented at 32 fractional bits, i.e. the raw value `2^32 / 10^n`. -/
theorem compute_alpha_for_ema_closed_form (l liquidity_scale_max : Nat) :
    compute_alpha_for_ema l liquidity_scale_max =
      if liquidity_scale_max ≤ l then fx32One
      else f32 / 10 ^ ema_exp l liquidity_scale_max := by
  by_cases h : liquidity_scale_max ≤ l
  · rw [if_pos h]
    unfold compute_alpha_for_ema
    rw [if_pos h]
  · rw [if_neg h]
    unfold compute_alpha_for_ema
    rw [if_neg h]
    show u96OfI96
        ((fun al => i96SafeDiv al (10 * (f32 : Int)))^[ema_exp l liquidity_scale_max]
          ((f32 : Int))) = f32 / 10 ^ ema_exp l liquidity_scale_max
    rw [iter_tenth_div (ema_exp l liquidity_scale_max) f32 le_rfl]
    exact Int.toNat_natCast _

/-- Modelled from the spec: `checked_sqrt` comes from the external
`safe_math` crate, which is not among this repository's core sources.  The
spec describes the liquidity as the square root of the scaled constant
product, guarded with an epsilon and falling back to zero
(`unwrap_or(0)`).  The `U96F32` floor square root of a raw value `k` is
`Nat.sqrt (k * 2^32)`. -/
def checked_sqrt_raw (k : Nat) : Nat := Nat.sqrt (k * f32)

/- The new moving price computed by `update_moving_price`: the EMA blend
clamped from above by the current spot price (`I96F32` raw value).
`I96F32::from_num(current_price)` is modelled as the exact cast: the spot
price of a pool with `u64` reserves is below `2^64 <= 2^95`, so the
conversion never overflows. -/
def new_moving_raw (s : ChainState) (netuid : Nat) : Int :=
  let tao_reserves := fx32SafeDiv (fx32OfU64 (s.subnetTAO netuid)) (fx32OfU64 1000000000)
  let alpha_reserves := fx32SafeDiv (fx32OfU64 (s.subnetAlphaIn netuid)) (fx32OfU64 1000000000)
  let k := fx32Mul tao_reserves alpha_reserves
  let l := checked_sqrt_raw k
  let alphaEma := compute_alpha_for_ema l (fx32OfU64 (s.liquidityScaleMax netuid))
  let one_minus_alpha := fx32One - alphaEma
  let weighted_current_price := fx32Mul alphaEma (get_alpha_price s netuid)
  let weighted_current_moving := fx32Mul one_minus_alpha (get_moving_alpha_price s netuid)
  min (i96OfU96 (fx32Add weighted_current_price weighted_current_moving))
    ((get_alpha_price s netuid : Nat) : Int)

def update_moving_price (s : ChainState) (netuid : Nat) : ChainState :=
  { s with
    subnetMovingPrice := fun i => if i = netuid then new_moving_raw s netuid else s.subnetMovingPrice i }

/-- C3: immediately after `update_moving_price(netuid)`, the stored
`SubnetMovingPrice` is at most the current spot price `get_alpha_price(netuid)`
(the stored `I96F32` raw compared against the `U96F32` raw of the price). -/
theorem moving_price_le_spot_after_update (s : ChainState) (netuid : Nat) :
    (update_moving_price s netuid).subnetMovingPrice netuid ≤
      ((get_alpha_price (update_moving_price s netuid) netuid : Nat) : Int) := by
  have hprice : get_alpha_price (update_moving_price s netuid) netuid = get_alpha_price s netuid :=
    rfl
  rw [hprice]
  show (if netuid = netuid then new_moving_raw s netuid else s.subnetMovingPrice netuid) ≤
    ((get_alpha_price s netuid : Nat) : Int)
  rw [if_pos rfl]
  exact min_le_right _ _

/- ### Stake inheritance (`get_inherited_for_hotkey_on_subnet`) -/

def get_stake_for_hotkey_on_subnet (s : ChainState) (hotkey netuid : Nat) : Nat :=
  s.totalHotkeyAlpha hotkey netuid

/- One delegation step: `proportion / u64::MAX * stake`, in `U96F32`. -/
def proportion_of_stake (stake proportion : Nat) : Nat :=
  fx32Mul (fx32OfU64 stake) (fx32SafeDiv (fx32OfU64 proportion) (fx32OfU64 u64Max))

def get_inherited_for_hotkey_on_subnet (s : ChainState) (hotkey netuid : Nat) : Nat :=
  let initial_alpha := fx32OfU64 (get_stake_for_hotkey_on_subnet s hotkey netuid)
  if netuid = 0 then fx32ToU64 initial_alpha
  else
    let parents := s.parentKeys hotkey netuid
    let children := s.childKeys hotkey netuid
    let alpha_to_children := children.foldl
      (fun acc pc =>
        fx32Add acc (proportion_of_stake (get_stake_for_hotkey_on_subnet s hotkey netuid) pc.1)) 0
    let alpha_from_parents := parents.foldl
      (fun acc pc =>
        fx32Add acc (proportion_of_stake (get_stake_for_hotkey_on_subnet s pc.2 netuid) pc.1)) 0
    fx32ToU64 (fx32Add (initial_alpha - alpha_to_children) alpha_from_parents)

/-- C9: on the root subnet (netuid 0) `get_inherited_for_hotkey_on_subnet`
returns the raw pool-owned stake (`TotalHotkeyAlpha`) unchanged, skipping
the parent/child redistribution entirely, whatever delegation edges exist.
The hypothesis records that the stored stake is a `u64`. -/
theorem inherited_at_root_is_raw (s : ChainState) (hotkey : Nat)
    (hbound : s.totalHotkeyAlpha hotkey 0 ≤ u64Max) :
    get_inherited_for_hotkey_on_subnet s hotkey 0 = s.totalHotkeyAlpha hotkey 0 := by
  unfold get_inherited_for_hotkey_on_subnet
  rw [if_pos rfl]
  unfold fx32ToU64 fx32OfU64 get_stake_for_hotkey_on_subnet
  rw [Nat.mul_div_cancel _ (by norm_num [f32])]
  exact min_eq_left hbound

theorem inherited_at_root_is_raw_witness :
    witnessPoolState.totalHotkeyAlpha 0 0 ≤ u64Max ∧
    get_inherited_for_hotkey_on_subnet witnessPoolState 0 0 = witnessPoolState.totalHotkeyAlpha 0 0 :=
  ⟨by decide, inherited_at_root_is_raw witnessPoolState 0 (by decide)⟩

theorem fx32Add_foldl_ge_init (l : List (Nat × Nat)) (g : Nat × Nat → Nat) :
    ∀ acc : Nat, acc ≤ u128Max → acc ≤ l.foldl (fun acc pc => fx32Add acc (g pc)) acc := by
  induction l with
  | nil => intro acc _; exact le_rfl
  | cons hd tl ih =>
      intro acc hacc
      have h1 : acc ≤ fx32Add acc (g hd) := by
        unfold fx32Add
        omega
      have h2 : fx32Add acc (g hd) ≤ u128Max := by
        unfold fx32Add
        omega
      exact le_trans h1 (by simpa using ih (fx32Add acc (g hd)) h2)

/-- C4: for a hotkey on a non-root subnet, with only child edges (no
parents) whose proportions sum to at most `u64::MAX`, the inherited stake
is at most the raw pool-owned stake; with only parent edges (no children)
it is at least the raw stake (the raw stake being a `u64`). -/
theorem inherited_stake_bounds (s : ChainState) (hotkey netuid : Nat) (hnr : netuid ≠ 0) :
    (s.parentKeys hotkey netuid = [] →
      ((s.childKeys hotkey netuid).map Prod.fst).sum ≤ u64Max →
      get_inherited_for_hotkey_on_subnet s hotkey netuid ≤ s.totalHotkeyAlpha hotkey netuid) ∧
    (s.childKeys hotkey netuid = [] →
      s.totalHotkeyAlpha hotkey netuid ≤ u64Max →
      s.totalHotkeyAlpha hotkey netuid ≤ get_inherited_for_hotkey_on_subnet s hotkey netuid) := by
  constructor
  · intro hpar _
    unfold get_inherited_for_hotkey_on_subnet
    rw [if_neg hnr, hpar]
    show fx32ToU64 (fx32Add
      (fx32OfU64 (get_stake_for_hotkey_on_subnet s hotkey netuid) - _) (List.foldl _ 0 [])) ≤ _
    rw [List.foldl_nil]
    unfold fx32ToU64 fx32Add fx32OfU64 get_stake_for_hotkey_on_subnet
    have hf : 0 < f32 := by norm_num [f32]
    calc min (min (s.totalHotkeyAlpha hotkey netuid * f32 - _ + 0) u128Max / f32) u64Max
        ≤ min (s.totalHotkeyAlpha hotkey netuid * f32 - _ + 0) u128Max / f32 := min_le_left _ _
      _ ≤ (s.totalHotkeyAlpha hotkey netuid * f32 - _ + 0) / f32 :=
          Nat.div_le_div_right (min_le_left _ _)
      _ ≤ s.totalHotkeyAlpha hotkey netuid * f32 / f32 :=
          Nat.div_le_div_right (by omega)
      _ = s.totalHotkeyAlpha hotkey netuid := Nat.mul_div_cancel _ hf
  · intro hch hbound
    unfold get_inherited_for_hotkey_on_subnet
    rw [if_neg hnr, hch]
    show s.totalHotkeyAlpha hotkey netuid ≤ fx32ToU64 (fx32Add
      (fx32OfU64 (get_stake_for_hotkey_on_subnet s hotkey netuid) - List.foldl _ 0 []) _)
    rw [List.foldl_nil]
    unfold fx32ToU64 fx32Add fx32OfU64 get_stake_for_hotkey_on_subnet
    have hf : 0 < f32 := by norm_num [f32]
    set v := s.totalHotkeyAlpha hotkey netuid with hv
    set P := List.foldl
      (fun acc pc =>
        fx32Add acc (proportion_of_stake (get_stake_for_hotkey_on_subnet s pc.2 netuid) pc.1))
      0 (s.parentKeys hotkey netuid) with hP
    have hvf : v * f32 ≤ u128Max := by
      have : v * f32 ≤ u64Max * f32 := Nat.mul_le_mul_right _ hbound
      calc v * f32 ≤ u64Max * f32 := this
        _ ≤ u128Max := by norm_num [u64Max, u128Max, f32]
    refine le_min ?_ hbound
    have h1 : v * f32 ≤ min (v * f32 - 0 + P) u128Max := by omega
    calc v = v * f32 / f32 := (Nat.mul_div_cancel _ hf).symm
      _ ≤ min (v * f32 - 0 + P) u128Max / f32 := Nat.div_le_div_right h1

/- A state with a single child delegation edge, used as witness input. -/
def delegationState : ChainState :=
  { witnessPoolState with
    totalHotkeyAlpha := fun hk nu => if hk = 2 ∧ nu = 1 then 1000 else 0
    childKeys := fun hk nu => if hk = 2 ∧ nu = 1 then [(9223372036854775807, 3)] else [] }

theorem inherited_stake_bounds_witness :
    (1 : Nat) ≠ 0 ∧ delegationState.parentKeys 2 1 = [] ∧
    ((delegationState.childKeys 2 1).map Prod.fst).sum ≤ u64Max ∧
    get_inherited_for_hotkey_on_subnet delegationState 2 1 ≤ delegationState.totalHotkeyAlpha 2 1 :=
  ⟨by decide, rfl, by decide,
    (inherited_stake_bounds delegationState 2 1 (by decide)).1 rfl (by decide)⟩

/- ### Share pool (generic fractional-ownership ledger)

The `SharePool` implementation itself lives in the external `share_pool`
module, which is not among this repository's core sources; only its
call sites are.  Its operations are modelled from the spec below. -/

structure SharePoolState where
  sharedValue : Nat
  denominator : Rat
  shares : Nat → Option Rat

/-- Modelled from the spec: an owner's imputed value is
`share / total_shares * total_value`, 0 when `total_shares = 0`, rounded
toward zero; the `try` accessor reports an error (here `none`) when the
owner has no share entry.  (`SharePool::try_get_value` is external code.) -/
def try_get_value (p : SharePoolState) (key : Nat) : Option Nat :=
  match p.shares key with
  | none => none
  | some sh =>
      some (if p.denominator = 0 then 0
            else (⌊sh / p.denominator * (p.sharedValue : Rat)⌋).toNat)

def get_value_of (p : SharePoolState) (key : Nat) : Nat :=
  (try_get_value p key).getD 0

/-- Modelled from the spec: `update_value_for_one` applies a signed value
delta for one owner (`SharePool::update_value_for_one` is external code).
A positive delta mints shares at the current price per share, seeding 1:1
on an empty pool; a negative delta burns the shares corresponding to the
removed amount (`amount * total_shares / total_value`), pruning a share
that reaches exactly zero.  It returns the applied value delta together
with the new pool state. -/
def update_value_for_one (p : SharePoolState) (key : Nat) (delta : Int) :
    Int × SharePoolState :=
  if delta = 0 then (0, p)
  else if 0 < delta then
    let n := delta.toNat
    if p.denominator = 0 then
      (delta,
        { sharedValue := p.sharedValue + n, denominator := ((n : Rat)),
          shares := fun k => if k = key then some ((n : Rat)) else p.shares k })
    else if p.sharedValue = 0 then (0, p)
    else
      let minted := (n : Rat) * p.denominator / (p.sharedValue : Rat)
      (delta,
        { sharedValue := p.sharedValue + n, denominator := p.denominator + minted,
          shares := fun k => if k = key then some ((p.shares key).getD 0 + minted) else p.shares k })
  else
    let n := delta.natAbs
    if p.denominator = 0 ∨ p.sharedValue = 0 then (0, p)
    else
      let burned := (n : Rat) * p.denominator / (p.sharedValue : Rat)
      let newShare := (p.shares key).getD 0 - burned
      (delta,
        { sharedValue := p.sharedValue - n
          denominator := p.denominator - burned
          shares := fun k =>
            if k = key then (if newShare = 0 then none else some newShare) else p.shares k })

/-- Modelled from the spec: the `try` variant simulates a single-owner
contribution without mutating state, rejecting a contribution whose
minted shares would round to zero (`SharePool::sim_update_value_for_one`
is external code). -/
def sim_update_value_for_one (p : SharePoolState) (amount : Int) : Bool :=
  if p.denominator = 0 then decide (amount ≠ 0)
  else if p.sharedValue = 0 then false
  else decide ((amount : Rat) * p.denominator / (p.sharedValue : Rat) ≠ 0)

/- Source: `decrease_stake_for_hotkey_and_coldkey_on_subnet` checks the
owner's imputed value before burning and clamps the returned delta. -/
def decrease_stake_for_hotkey_and_coldkey_on_subnet (p : SharePoolState)
    (coldkey amount : Nat) : Nat × SharePoolState :=
  match try_get_value p coldkey with
  | some value =>
      if amount ≤ value then
        let r := update_value_for_one p coldkey (-(amount : Int))
        ((max (-r.1) 0).toNat, r.2)
      else (0, p)
  | none => (0, p)

theorem update_value_for_one_burn (p : SharePoolState) (key amount : Nat) (h1 : 1 ≤ amount)
    (hden : p.denominator ≠ 0) (hsv : p.sharedValue ≠ 0) :
    update_value_for_one p key (-(amount : Int)) =
      (-(amount : Int),
        { sharedValue := p.sharedValue - amount
          denominator := p.denominator - (amount : Rat) * p.denominator / (p.sharedValue : Rat)
          shares := fun k =>
            if k = key then
              (if (p.shares key).getD 0 -
                  (amount : Rat) * p.denominator / (p.sharedValue : Rat) = 0 then none
               else some ((p.shares key).getD 0 -
                  (amount : Rat) * p.denominator / (p.sharedValue : Rat)))
            else p.shares k }) := by
  have hd0 : (-(amount : Int)) ≠ 0 := by
    simp only [ne_eq, neg_eq_zero]
    exact_mod_cast Nat.one_le_iff_ne_zero.mp h1
  have hd1 : ¬ (0 < (-(amount : Int))) := by omega
  have hnabs : (-(amount : Int)).natAbs = amount := by simp [Int.natAbs_neg]
  unfold update_value_for_one
  rw [if_neg hd0, if_neg hd1, if_neg (by tauto), hnabs]

/-- C8: if the coldkey's imputed value in the share pool is below the
requested amount, `decrease_stake_for_hotkey_and_coldkey_on_subnet`
returns 0 and leaves the pool (total value, denominator, every share)
unchanged; otherwise it returns the removed amount, reduces the total
value by it, burns the corresponding shares (`amount * total_shares /
total_value`) from the denominator, and leaves every other owner's share
unchanged. -/
theorem decrease_stake_no_partial_effect (p : SharePoolState) (coldkey amount : Nat) :
    (get_value_of p coldkey < amount →
      decrease_stake_for_hotkey_and_coldkey_on_subnet p coldkey amount = (0, p)) ∧
    (amount ≤ get_value_of p coldkey →
      (decrease_stake_for_hotkey_and_coldkey_on_subnet p coldkey amount).1 = amount ∧
      (decrease_stake_for_hotkey_and_coldkey_on_subnet p coldkey amount).2.sharedValue
        = p.sharedValue - amount ∧
      (∀ k, k ≠ coldkey →
        (decrease_stake_for_hotkey_and_coldkey_on_subnet p coldkey amount).2.shares k
          = p.shares k) ∧
      (1 ≤ amount →
        (decrease_stake_for_hotkey_and_coldkey_on_subnet p coldkey amount).2.denominator
          = p.denominator - (amount : Rat) * p.denominator / (p.sharedValue : Rat))) := by
  unfold decrease_stake_for_hotkey_and_coldkey_on_subnet
  split
  case h_1 v hv =>
    have hval : get_value_of p coldkey = v := by unfold get_value_of; rw [hv]; rfl
    split
    case isTrue hle =>
      constructor
      · intro hlt
        rw [hval] at hlt
        omega
      · intro _
        by_cases ha0 : amount = 0
        · subst ha0
          have hz : (-((0 : Nat) : Int)) = (0 : Int) := by norm_num
          rw [hz]
          unfold update_value_for_one
          rw [if_pos rfl]
          exact ⟨rfl, (Nat.sub_zero _).symm, fun _ _ => rfl, fun h => absurd h (by omega)⟩
        · have ha1 : 1 ≤ amount := by omega
          have hv1 : 1 ≤ v := le_trans ha1 hle
          obtain ⟨sh, hsh⟩ : ∃ sh, p.shares coldkey = some sh := by
            unfold try_get_value at hv
            cases hshc : p.shares coldkey with
            | none => rw [hshc] at hv; exact absurd hv (by simp)
            | some sh => exact ⟨sh, rfl⟩
          have hveq : (if p.denominator = 0 then 0
              else (⌊sh / p.denominator * (p.sharedValue : Rat)⌋).toNat) = v := by
            unfold try_get_value at hv
            rw [hsh] at hv
            exact Option.some.injEq _ _ ▸ hv
          have hden : p.denominator ≠ 0 := by
            intro h0
            rw [if_pos h0] at hveq
            omega
          have hsv : p.sharedValue ≠ 0 := by
            intro h0
            rw [if_neg hden, h0] at hveq
            norm_num at hveq
            omega
          rw [update_value_for_one_burn p coldkey amount ha1 hden hsv]
          refine ⟨by simp, rfl, ?_, fun _ => rfl⟩
          intro k hk
          show (if k = coldkey then _ else p.shares k) = p.shares k
          rw [if_neg hk]
    case isFalse hnle =>
      constructor
      · intro _
        rfl
      · intro hge
        rw [hval] at hge
        omega
  case h_2 hv =>
    have hval : get_value_of p coldkey = 0 := by unfold get_value_of; rw [hv]; rfl
    constructor
    · intro _
      rfl
    · intro hle
      rw [hval] at hle
      have ha0 : amount = 0 := Nat.le_zero.mp hle
      subst ha0
      exact ⟨rfl, (Nat.sub_zero _).symm, fun _ _ => rfl, fun h => absurd h (by omega)⟩

/- A concrete pool for the C8 witness: one owner (coldkey 5) holding all
2 shares of a pool worth 10. -/
def c8pool : SharePoolState where
  sharedValue := 10
  denominator := 2
  shares := fun k => if k = 5 then some 2 else none

theorem decrease_stake_no_partial_effect_witness :
    4 ≤ get_value_of c8pool 5 ∧
    (decrease_stake_for_hotkey_and_coldkey_on_subnet c8pool 5 4).1 = 4 := by
  have hval : get_value_of c8pool 5 = 10 := by
    norm_num [get_value_of, try_get_value, c8pool]
    rfl
  exact ⟨by omega, ((decrease_stake_no_partial_effect c8pool 5 4).2 (by omega)).1⟩

/- ### Validation layer (`validate_add_stake`) -/

inductive StakeError where
  | subnetNotExists
  | amountTooLow
  | slippageTooHigh
  | notEnoughBalanceToStake
  | hotKeyAccountNotExists
  | insufficientLiquidity
  | notEnoughStakeToWithdraw
  | transferDisallowed
  | subtokenDisabled
  deriving DecidableEq, Repr

/- The share-pool view over the `(hotkey, netuid)` alpha storage
(`get_alpha_share_pool`). -/
def get_alpha_share_pool (s : ChainState) (hotkey netuid : Nat) : SharePoolState where
  sharedValue := s.totalHotkeyAlpha hotkey netuid
  denominator := s.totalHotkeyShares hotkey netuid
  shares := fun coldkey => s.alphaShares hotkey coldkey netuid

def try_increase_stake_for_hotkey_and_coldkey_on_subnet (s : ChainState)
    (hotkey netuid amount : Nat) : Bool :=
  sim_update_value_for_one (get_alpha_share_pool s hotkey netuid) ((amount : Int))

/- Each `ensure!` of the source in order; a failed guard short-circuits
with its error. -/
def validate_add_stake (s : ChainState) (coldkey hotkey netuid stake_to_be_added max_amount : Nat)
    (allowPartial : Bool) : Except StakeError Unit :=
  if s.subnetExistsMap netuid = false then .error .subnetNotExists
  else if stake_to_be_added < satAdd64 s.defaultMinStake s.defaultStakingFee then
    .error .amountTooLow
  else if allowPartial = false ∧ max_amount < stake_to_be_added then .error .slippageTooHigh
  else if s.canRemoveBalance coldkey stake_to_be_added = false then
    .error .notEnoughBalanceToStake
  else if s.hotkeyExistsMap hotkey = false then .error .hotKeyAccountNotExists
  else
    match sim_swap_tao_for_alpha s netuid stake_to_be_added with
    | none => .error .insufficientLiquidity
    | some expected_alpha =>
        if try_increase_stake_for_hotkey_and_coldkey_on_subnet s hotkey netuid expected_alpha
        then .ok ()
        else .error .insufficientLiquidity

/- State for the C7 counterexample: `DefaultMinStake = 5`,
`DefaultStakingFee = 3`, every other guard satisfied (netuid 2 is a
Stable-mechanism subnet here, and the empty share pool accepts any
nonzero contribution). -/
def cs7 : ChainState :=
  { witnessPoolState with defaultMinStake := 5, defaultStakingFee := 3 }

/-- C7 counterexample: a request for exactly
`DefaultMinStake + DefaultStakingFee = 8` is NOT rejected as too low —
`validate_add_stake` accepts it (the source guard is `>=`, not `>`). -/
theorem validate_add_stake_equal_min_accepted :
    satAdd64 cs7.defaultMinStake cs7.defaultStakingFee = 8 ∧
    validate_add_stake cs7 0 0 2 8 100 true = Except.ok () := by
  constructor
  · decide
  · rfl

/-- C7 (amended): for an existing subnet, `validate_add_stake` returns the
`AmountTooLow` error exactly when the requested amount is strictly below
`DefaultMinStake + DefaultStakingFee`; a request exactly equal to that sum
passes the minimum-amount check. -/
theorem validate_add_stake_amount_too_low_iff (s : ChainState)
    (coldkey hotkey netuid stake_to_be_added max_amount : Nat) (allowPartial : Bool)
    (hsub : s.subnetExistsMap netuid = true) :
    (validate_add_stake s coldkey hotkey netuid stake_to_be_added max_amount allowPartial
        = Except.error StakeError.amountTooLow ↔
      stake_to_be_added < satAdd64 s.defaultMinStake s.defaultStakingFee) := by
  unfold validate_add_stake
  rw [hsub]
  simp only [Bool.true_eq_false, if_false]
  by_cases hlow : stake_to_be_added < satAdd64 s.defaultMinStake s.defaultStakingFee
  · rw [if_pos hlow]
    simp [hlow]
  · rw [if_neg hlow]
    simp only [hlow, iff_false]
    split_ifs <;> try simp
    cases sim_swap_tao_for_alpha s netuid stake_to_be_added with
    | none => simp
    | some expected_alpha =>
        show ¬ (if try_increase_stake_for_hotkey_and_coldkey_on_subnet
              s hotkey netuid expected_alpha = true then Except.ok ()
            else Except.error StakeError.insufficientLiquidity)
          = Except.error StakeError.amountTooLow
        split_ifs <;> simp

theorem validate_add_stake_amount_too_low_iff_witness :
    cs7.subnetExistsMap 2 = true ∧
    validate_add_stake cs7 0 0 2 7 100 true = Except.error StakeError.amountTooLow :=
  ⟨rfl, (validate_add_stake_amount_too_low_iff cs7 0 0 2 7 100 true rfl).mpr (by decide)⟩

/- ### Staking fee (`calculate_staking_fee`) -/

/- `U96F32::saturating_from_num(0.00005)`: the raw value, rounding the
float constant to the nearest multiple of `2^-32` (`0.00005 * 2^32 =
214748.3648`). -/
def apr_20_percent_raw : Nat := 214748

/- The destination-on-the-same-subnet test of the source's nested
`if let Some((_, destination_netuid)) = destination`. -/
def sameSubnetMove (destination : Option (Nat × Nat)) (origin_netuid : Nat) : Bool :=
  match destination with
  | some pd => pd.2 == origin_netuid
  | none => false

def calculate_staking_fee (s : ChainState) (origin : Option (Nat × Nat)) (originColdkey : Nat)
    (destination : Option (Nat × Nat)) (destinationColdkey : Nat) (alphaEstimate : Nat) : Nat :=
  match origin with
  | some (origin_hotkey, origin_netuid) =>
      if sameSubnetMove destination origin_netuid then
        s.defaultStakingFee
      else if origin_netuid = get_root_netuid ∨ s.subnetMechanism origin_netuid = 0 then
        s.defaultStakingFee
      else
        let tao_estimate :=
          fx32OfU64 ((sim_swap_alpha_for_tao s origin_netuid (fx32ToU64 alphaEstimate)).getD 0)
        let fee0 := fx32ToU64 (fx32Mul tao_estimate
          (fx32SafeDiv (fx32OfU64 (s.alphaDividendsPerSubnet origin_netuid origin_hotkey))
            (fx32OfU64 (s.totalHotkeyAlphaLastEpoch origin_hotkey origin_netuid))))
        let fee1 := max fee0 (fx32ToU64 (fx32Mul tao_estimate apr_20_percent_raw))
        max fee1 s.defaultStakingFee
  | none => s.defaultStakingFee

/-- C10: `calculate_staking_fee` never returns less than
`DefaultStakingFee`, for every origin/destination combination and alpha
estimate, including the zero-`TotalHotkeyAlphaLastEpoch` fallback (the
dividend ratio `safe_div` falls back to zero there, and the final
`max` with the default fee still applies). -/
theorem staking_fee_at_least_default (s : ChainState) (origin : Option (Nat × Nat))
    (originColdkey : Nat) (destination : Option (Nat × Nat)) (destinationColdkey : Nat)
    (alphaEstimate : Nat) :
    s.defaultStakingFee ≤
      calculate_staking_fee s origin originColdkey destination destinationColdkey alphaEstimate := by
  unfold calculate_staking_fee
  cases origin with
  | none => exact le_rfl
  | some p =>
      obtain ⟨origin_hotkey, origin_netuid⟩ := p
      dsimp only
      split_ifs
      · exact le_rfl
      · exact le_rfl
      · exact Nat.le_max_right _ _

/- ### Deferred job scheduler (`do_on_finalize`)

The scheduler drains the jobs stored under key `current_block - 1`
(saturating), partitions them into six buckets by kind, sorts every
bucket with a coldkey comparator whose direction flips with the high bit
of the previous block hash's first byte, and concatenates the buckets —
in reverse sequence when that bit is set.  Executing each job re-enters
the corresponding extrinsic (out of scope here); the embedding produces
the execution order. -/

inductive StakeJob where
  | addStake (hotkey coldkey netuid stakeToBeAdded : Nat)
  | removeStake (coldkey hotkey netuid alphaUnstaked : Nat)
  | addStakeLimit (hotkey coldkey netuid stakeToBeAdded limitPrice : Nat) (allowPartial : Bool)
  | removeStakeLimit (hotkey coldkey netuid alphaUnstaked limitPrice : Nat) (allowPartial : Bool)
  | unstakeAll (hotkey coldkey : Nat)
  | unstakeAllAlpha (hotkey coldkey : Nat)
  deriving DecidableEq, Repr

def StakeJob.coldkey : StakeJob → Nat
  | .addStake _ c _ _ => c
  | .removeStake c _ _ _ => c
  | .addStakeLimit _ c _ _ _ _ => c
  | .removeStakeLimit _ c _ _ _ _ => c
  | .unstakeAll _ c => c
  | .unstakeAllAlpha _ c => c

def isAddStakeJob : StakeJob → Bool
  | .addStake _ _ _ _ => true
  | _ => false

def isRemoveStakeJob : StakeJob → Bool
  | .removeStake _ _ _ _ => true
  | _ => false

def isAddStakeLimitJob : StakeJob → Bool
  | .addStakeLimit _ _ _ _ _ _ => true
  | _ => false

def isRemoveStakeLimitJob : StakeJob → Bool
  | .removeStakeLimit _ _ _ _ _ _ => true
  | _ => false

def isUnstakeAllJob : StakeJob → Bool
  | .unstakeAll _ _ => true
  | _ => false

def isUnstakeAllAlphaJob : StakeJob → Bool
  | .unstakeAllAlpha _ _ => true
  | _ => false

/- The six `sort_by` comparators of `do_on_finalize`.  Jobs of any other
kind compare `Equal` (unreachable, since every bucket is homogeneous). -/

def cmpRemoveStakeLimit (altered : Bool) (a b : StakeJob) : Ordering :=
  match a, b with
  | .removeStakeLimit _ ca _ _ _ _, .removeStakeLimit _ cb _ _ _ _ =>
      let direct := compare ca cb
      if altered then direct.swap else direct
  | _, _ => .eq

def cmpRemoveStake (altered : Bool) (a b : StakeJob) : Ordering :=
  match a, b with
  | .removeStake ca _ _ _, .removeStake cb _ _ _ =>
      let direct := compare ca cb
      if altered then direct.swap else direct
  | _, _ => .eq

def cmpUnstakeAll (altered : Bool) (a b : StakeJob) : Ordering :=
  match a, b with
  | .unstakeAll _ ca, .unstakeAll _ cb =>
      let direct := compare ca cb
      if altered then direct.swap else direct
  | _, _ => .eq

def cmpUnstakeAllAlpha (altered : Bool) (a b : StakeJob) : Ordering :=
  match a, b with
  | .unstakeAllAlpha _ ca, .unstakeAllAlpha _ cb =>
      let direct := compare ca cb
      if altered then direct.swap else direct
  | _, _ => .eq

def cmpAddStakeLimit (altered : Bool) (a b : StakeJob) : Ordering :=
  match a, b with
  | .addStakeLimit _ ca _ _ _ _, .addStakeLimit _ cb _ _ _ _ =>
      let direct := compare cb ca
      if altered then direct.swap else direct
  | _, _ => .eq

def cmpAddStake (altered : Bool) (a b : StakeJob) : Ordering :=
  match a, b with
  | .addStake _ ca _ _, .addStake _ cb _ _ =>
      let direct := compare cb ca
      if altered then direct.swap else direct
  | _, _ => .eq

/- `sort_by(cmp)` sorts so that consecutive elements never compare
`Greater`; the matching order relation is `cmp a b ≠ Greater`. -/
def relOf (cmp : StakeJob → StakeJob → Ordering) (a b : StakeJob) : Prop :=
  cmp a b ≠ Ordering.gt

instance relOf.decidable (cmp : StakeJob → StakeJob → Ordering) : DecidableRel (relOf cmp) :=
  fun a b => decidable_of_iff (cmp a b ≠ Ordering.gt) Iff.rfl

def do_on_finalize_order (stakeJobs : Nat → List StakeJob) (current_block : Nat)
    (hashFirstByte : Nat) : List StakeJob :=
  let drained := stakeJobs (current_block - 1)
  let altered_order := hashFirstByte.testBit 7
  let remove_stake_limit := List.insertionSort (relOf (cmpRemoveStakeLimit altered_order))
    (List.filter isRemoveStakeLimitJob drained)
  let remove_stake := List.insertionSort (relOf (cmpRemoveStake altered_order))
    (List.filter isRemoveStakeJob drained)
  let unstake_all := List.insertionSort (relOf (cmpUnstakeAll altered_order))
    (List.filter isUnstakeAllJob drained)
  let unstake_all_alpha := List.insertionSort (relOf (cmpUnstakeAllAlpha altered_order))
    (List.filter isUnstakeAllAlphaJob drained)
  let add_stake_limit := List.insertionSort (relOf (cmpAddStakeLimit altered_order))
    (List.filter isAddStakeLimitJob drained)
  let add_stake := List.insertionSort (relOf (cmpAddStake altered_order))
    (List.filter isAddStakeJob drained)
  let job_batches := [remove_stake_limit, remove_stake, unstake_all, unstake_all_alpha,
    add_stake_limit, add_stake]
  (if altered_order then job_batches.reverse else job_batches).flatten

def keyList (l : List StakeJob) : List Nat := l.map StakeJob.coldkey

/- Helper lemmas for the scheduler proof. -/

theorem count_filter_false {α : Type} [DecidableEq α] {p : α → Bool} {a : α} {l : List α}
    (h : p a = false) : List.count a (List.filter p l) = 0 :=
  List.count_eq_zero.mpr (fun hmem => by
    have hpa := List.of_mem_filter hmem
    rw [h] at hpa
    exact Bool.noConfusion hpa)

theorem perm_six_filter (l : List StakeJob) :
    l.Perm (List.filter isRemoveStakeLimitJob l ++ (List.filter isRemoveStakeJob l ++
      (List.filter isUnstakeAllJob l ++ (List.filter isUnstakeAllAlphaJob l ++
      (List.filter isAddStakeLimitJob l ++ List.filter isAddStakeJob l))))) := by
  rw [List.perm_iff_count]
  intro a
  simp only [List.count_append]
  cases a <;>
    simp [List.count_filter, count_filter_false, isRemoveStakeLimitJob, isRemoveStakeJob,
      isUnstakeAllJob, isUnstakeAllAlphaJob, isAddStakeLimitJob, isAddStakeJob]

theorem perm_six_filter_rev (l : List StakeJob) :
    l.Perm (List.filter isAddStakeJob l ++ (List.filter isAddStakeLimitJob l ++
      (List.filter isUnstakeAllAlphaJob l ++ (List.filter isUnstakeAllJob l ++
      (List.filter isRemoveStakeJob l ++ List.filter isRemoveStakeLimitJob l))))) := by
  rw [List.perm_iff_count]
  intro a
  simp only [List.count_append]
  cases a <;>
    simp [List.count_filter, count_filter_false, isRemoveStakeLimitJob, isRemoveStakeJob,
      isUnstakeAllJob, isUnstakeAllAlphaJob, isAddStakeLimitJob, isAddStakeJob]

theorem filter_sort_self (p : StakeJob → Bool) (r : StakeJob → StakeJob → Prop) [DecidableRel r]
    (jobs : List StakeJob) :
    List.filter p (List.insertionSort r (List.filter p jobs)) =
      List.insertionSort r (List.filter p jobs) :=
  List.filter_eq_self.mpr fun _ hx =>
    List.of_mem_filter ((List.perm_insertionSort r _).mem_iff.mp hx)

theorem filter_sort_nil {p q : StakeJob → Bool} (hdisj : ∀ x, p x = true → q x = false)
    (r : StakeJob → StakeJob → Prop) [DecidableRel r] (jobs : List StakeJob) :
    List.filter q (List.insertionSort r (List.filter p jobs)) = [] :=
  List.filter_eq_nil_iff.mpr fun x hx hq => by
    have hp := List.of_mem_filter ((List.perm_insertionSort r _).mem_iff.mp hx)
    rw [hdisj x hp] at hq
    exact Bool.noConfusion hq

theorem map_orderedInsert_congr {α β : Type} (r : α → α → Prop) [DecidableRel r]
    (r' : β → β → Prop) [DecidableRel r'] (g : α → β) (x : α) :
    ∀ l : List α, (∀ y ∈ l, (r x y ↔ r' (g x) (g y))) →
      List.map g (List.orderedInsert r x l) = List.orderedInsert r' (g x) (List.map g l) := by
  intro l
  induction l with
  | nil => intro _; rfl
  | cons b bl ih =>
      intro h
      by_cases hrb : r x b
      · have hrb' : r' (g x) (g b) := (h b (List.mem_cons_self _ _)).mp hrb
        simp only [List.orderedInsert, List.map_cons]
        rw [if_pos hrb, if_pos hrb']
        simp
      · have hrb' : ¬ r' (g x) (g b) := fun hc => hrb ((h b (List.mem_cons_self _ _)).mpr hc)
        simp only [List.orderedInsert, List.map_cons]
        rw [if_neg hrb, if_neg hrb']
        simp only [List.map_cons, List.cons.injEq, true_and]
        exact ih (fun y hy => h y (List.mem_cons_of_mem _ hy))

theorem map_insertionSort_congr {α β : Type} (r : α → α → Prop) [DecidableRel r]
    (r' : β → β → Prop) [DecidableRel r'] (g : α → β) :
    ∀ l : List α, (∀ a ∈ l, ∀ b ∈ l, (r a b ↔ r' (g a) (g b))) →
      List.map g (List.insertionSort r l) = List.insertionSort r' (List.map g l) := by
  intro l
  induction l with
  | nil => intro _; rfl
  | cons a al ih =>
      intro h
      simp only [List.insertionSort, List.map_cons]
      rw [map_orderedInsert_congr r r' g a (List.insertionSort r al) (fun y hy =>
        h a (List.mem_cons_self _ _) y
          (List.mem_cons_of_mem _ ((List.perm_insertionSort r al).mem_iff.mp hy)))]
      rw [ih (fun u hu v hv =>
        h u (List.mem_cons_of_mem _ hu) v (List.mem_cons_of_mem _ hv))]

theorem insertionSort_ge_eq_reverse (m : List Nat) :
    List.insertionSort (fun a b : Nat => a ≥ b) m =
      (List.insertionSort (fun a b : Nat => a ≤ b) m).reverse := by
  have hp : (List.insertionSort (fun a b : Nat => a ≥ b) m).Perm
      (List.insertionSort (fun a b : Nat => a ≤ b) m).reverse :=
    ((List.perm_insertionSort _ m).trans (List.perm_insertionSort _ m).symm).trans
      (List.reverse_perm _).symm
  have h1 : List.Sorted (fun a b : Nat => a ≥ b)
      (List.insertionSort (fun a b : Nat => a ≥ b) m) :=
    List.sorted_insertionSort _ m
  have h2 : List.Sorted (fun a b : Nat => a ≥ b)
      (List.insertionSort (fun a b : Nat => a ≤ b) m).reverse := by
    rw [List.Sorted, List.pairwise_reverse]
    exact List.sorted_insertionSort (fun a b : Nat => a ≤ b) m
  exact List.eq_of_perm_of_sorted hp h1 h2

theorem insertionSort_le_eq_reverse (m : List Nat) :
    List.insertionSort (fun a b : Nat => a ≤ b) m =
      (List.insertionSort (fun a b : Nat => a ≥ b) m).reverse := by
  rw [insertionSort_ge_eq_reverse, List.reverse_reverse]

/- Each job kind excludes the other five. -/

theorem isRemoveStakeLimitJob_unique (x : StakeJob) (hx : isRemoveStakeLimitJob x = true) :
    isRemoveStakeJob x = false ∧ isUnstakeAllJob x = false ∧ isUnstakeAllAlphaJob x = false ∧
    isAddStakeLimitJob x = false ∧ isAddStakeJob x = false := by
  cases x <;> simp_all [isRemoveStakeLimitJob, isRemoveStakeJob, isUnstakeAllJob,
    isUnstakeAllAlphaJob, isAddStakeLimitJob, isAddStakeJob]

theorem isRemoveStakeJob_unique (x : StakeJob) (hx : isRemoveStakeJob x = true) :
    isRemoveStakeLimitJob x = false ∧ isUnstakeAllJob x = false ∧ isUnstakeAllAlphaJob x = false ∧
    isAddStakeLimitJob x = false ∧ isAddStakeJob x = false := by
  cases x <;> simp_all [isRemoveStakeLimitJob, isRemoveStakeJob, isUnstakeAllJob,
    isUnstakeAllAlphaJob, isAddStakeLimitJob, isAddStakeJob]

theorem isUnstakeAllJob_unique (x : StakeJob) (hx : isUnstakeAllJob x = true) :
    isRemoveStakeLimitJob x = false ∧ isRemoveStakeJob x = false ∧
    isUnstakeAllAlphaJob x = false ∧ isAddStakeLimitJob x = false ∧ isAddStakeJob x = false := by
  cases x <;> simp_all [isRemoveStakeLimitJob, isRemoveStakeJob, isUnstakeAllJob,
    isUnstakeAllAlphaJob, isAddStakeLimitJob, isAddStakeJob]

theorem isUnstakeAllAlphaJob_unique (x : StakeJob) (hx : isUnstakeAllAlphaJob x = true) :
    isRemoveStakeLimitJob x = false ∧ isRemoveStakeJob x = false ∧ isUnstakeAllJob x = false ∧
    isAddStakeLimitJob x = false ∧ isAddStakeJob x = false := by
  cases x <;> simp_all [isRemoveStakeLimitJob, isRemoveStakeJob, isUnstakeAllJob,
    isUnstakeAllAlphaJob, isAddStakeLimitJob, isAddStakeJob]

theorem isAddStakeLimitJob_unique (x : StakeJob) (hx : isAddStakeLimitJob x = true) :
    isRemoveStakeLimitJob x = false ∧ isRemoveStakeJob x = false ∧ isUnstakeAllJob x = false ∧
    isUnstakeAllAlphaJob x = false ∧ isAddStakeJob x = false := by
  cases x <;> simp_all [isRemoveStakeLimitJob, isRemoveStakeJob, isUnstakeAllJob,
    isUnstakeAllAlphaJob, isAddStakeLimitJob, isAddStakeJob]

theorem isAddStakeJob_unique (x : StakeJob) (hx : isAddStakeJob x = true) :
    isRemoveStakeLimitJob x = false ∧ isRemoveStakeJob x = false ∧ isUnstakeAllJob x = false ∧
    isUnstakeAllAlphaJob x = false ∧ isAddStakeLimitJob x = false := by
  cases x <;> simp_all [isRemoveStakeLimitJob, isRemoveStakeJob, isUnstakeAllJob,
    isUnstakeAllAlphaJob, isAddStakeLimitJob, isAddStakeJob]

/- Comparator-to-coldkey bridges on homogeneous buckets. -/

theorem compare_ne_gt_iff (a b : Nat) : compare a b ≠ Ordering.gt ↔ a ≤ b := by
  rw [Ne, Nat.compare_eq_gt]
  omega

theorem compare_swap_ne_gt_iff (a b : Nat) : (compare a b).swap ≠ Ordering.gt ↔ b ≤ a := by
  have h : (compare a b).swap = Ordering.gt ↔ compare a b = Ordering.lt := by
    cases hc : compare a b <;> simp [Ordering.swap]
  rw [Ne, h, Nat.compare_eq_lt]
  omega

theorem rel_cmpRemoveStakeLimit (altered : Bool) (a b : StakeJob)
    (ha : isRemoveStakeLimitJob a = true) (hb : isRemoveStakeLimitJob b = true) :
    relOf (cmpRemoveStakeLimit altered) a b ↔
      (if altered then b.coldkey ≤ a.coldkey else a.coldkey ≤ b.coldkey) := by
  cases a <;> simp_all [isRemoveStakeLimitJob]
  cases b <;> simp_all [isRemoveStakeLimitJob]
  cases altered
  · simpa [relOf, cmpRemoveStakeLimit, StakeJob.coldkey] using compare_ne_gt_iff _ _
  · simpa [relOf, cmpRemoveStakeLimit, StakeJob.coldkey] using compare_swap_ne_gt_iff _ _

theorem rel_cmpRemoveStake (altered : Bool) (a b : StakeJob)
    (ha : isRemoveStakeJob a = true) (hb : isRemoveStakeJob b = true) :
    relOf (cmpRemoveStake altered) a b ↔
      (if altered then b.coldkey ≤ a.coldkey else a.coldkey ≤ b.coldkey) := by
  cases a <;> simp_all [isRemoveStakeJob]
  cases b <;> simp_all [isRemoveStakeJob]
  cases altered
  · simpa [relOf, cmpRemoveStake, StakeJob.coldkey] using compare_ne_gt_iff _ _
  · simpa [relOf, cmpRemoveStake, StakeJob.coldkey] using compare_swap_ne_gt_iff _ _

theorem rel_cmpUnstakeAll (altered : Bool) (a b : StakeJob)
    (ha : isUnstakeAllJob a = true) (hb : isUnstakeAllJob b = true) :
    relOf (cmpUnstakeAll altered) a b ↔
      (if altered then b.coldkey ≤ a.coldkey else a.coldkey ≤ b.coldkey) := by
  cases a <;> simp_all [isUnstakeAllJob]
  cases b <;> simp_all [isUnstakeAllJob]
  cases altered
  · simpa [relOf, cmpUnstakeAll, StakeJob.coldkey] using compare_ne_gt_iff _ _
  · simpa [relOf, cmpUnstakeAll, StakeJob.coldkey] using compare_swap_ne_gt_iff _ _

theorem rel_cmpUnstakeAllAlpha (altered : Bool) (a b : StakeJob)
    (ha : isUnstakeAllAlphaJob a = true) (hb : isUnstakeAllAlphaJob b = true) :
    relOf (cmpUnstakeAllAlpha altered) a b ↔
      (if altered then b.coldkey ≤ a.coldkey else a.coldkey ≤ b.coldkey) := by
  cases a <;> simp_all [isUnstakeAllAlphaJob]
  cases b <;> simp_all [isUnstakeAllAlphaJob]
  cases altered
  · simpa [relOf, cmpUnstakeAllAlpha, StakeJob.coldkey] using compare_ne_gt_iff _ _
  · simpa [relOf, cmpUnstakeAllAlpha, StakeJob.coldkey] using compare_swap_ne_gt_iff _ _

theorem rel_cmpAddStakeLimit (altered : Bool) (a b : StakeJob)
    (ha : isAddStakeLimitJob a = true) (hb : isAddStakeLimitJob b = true) :
    relOf (cmpAddStakeLimit altered) a b ↔
      (if altered then a.coldkey ≤ b.coldkey else b.coldkey ≤ a.coldkey) := by
  cases a <;> simp_all [isAddStakeLimitJob]
  cases b <;> simp_all [isAddStakeLimitJob]
  cases altered
  · simpa [relOf, cmpAddStakeLimit, StakeJob.coldkey] using compare_ne_gt_iff _ _
  · simpa [relOf, cmpAddStakeLimit, StakeJob.coldkey] using compare_swap_ne_gt_iff _ _

theorem rel_cmpAddStake (altered : Bool) (a b : StakeJob)
    (ha : isAddStakeJob a = true) (hb : isAddStakeJob b = true) :
    relOf (cmpAddStake altered) a b ↔
      (if altered then a.coldkey ≤ b.coldkey else b.coldkey ≤ a.coldkey) := by
  cases a <;> simp_all [isAddStakeJob]
  cases b <;> simp_all [isAddStakeJob]
  cases altered
  · simpa [relOf, cmpAddStake, StakeJob.coldkey] using compare_ne_gt_iff _ _
  · simpa [relOf, cmpAddStake, StakeJob.coldkey] using compare_swap_ne_gt_iff _ _

theorem keyList_sortBucket (cmpA : StakeJob → StakeJob → Ordering) (p : StakeJob → Bool)
    (r' : Nat → Nat → Prop) [DecidableRel r'] (jobs : List StakeJob)
    (hbridge : ∀ a b, p a = true → p b = true → (relOf cmpA a b ↔ r' a.coldkey b.coldkey)) :
    keyList (List.insertionSort (relOf cmpA) (List.filter p jobs)) =
      List.insertionSort r' (keyList (List.filter p jobs)) := by
  unfold keyList
  exact map_insertionSort_congr _ _ _ _ (fun a ha b hb =>
    hbridge a b (List.of_mem_filter ha) (List.of_mem_filter hb))

theorem keyList_append (a b : List StakeJob) : keyList (a ++ b) = keyList a ++ keyList b := by
  unfold keyList
  exact List.map_append _ a b

/- The claim C2, stated over the embedding: `h0` is a first hash byte with
the high bit clear, `h1` one with the high bit set. -/
def finalize_order_spec (stakeJobs : Nat → List StakeJob) (current_block h0 h1 : Nat) : Prop :=
  let drained := stakeJobs (current_block - 1)
  let out0 := do_on_finalize_order stakeJobs current_block h0
  let out1 := do_on_finalize_order stakeJobs current_block h1
  -- both runs execute exactly the jobs drained at key current_block - 1
  out0.Perm drained ∧ out1.Perm drained ∧
  -- plain order: fixed bucket sequence, withdrawals before deposits
  out0 = List.filter isRemoveStakeLimitJob out0 ++ (List.filter isRemoveStakeJob out0 ++ (List.filter isUnstakeAllJob out0 ++ (List.filter isUnstakeAllAlphaJob out0 ++ (List.filter isAddStakeLimitJob out0 ++ (List.filter isAddStakeJob out0))))) ∧
  -- plain order: withdrawal buckets ascend by coldkey, deposit buckets descend
  (keyList (List.filter isRemoveStakeLimitJob out0)).Sorted (· ≤ ·) ∧
  (keyList (List.filter isRemoveStakeJob out0)).Sorted (· ≤ ·) ∧
  (keyList (List.filter isUnstakeAllJob out0)).Sorted (· ≤ ·) ∧
  (keyList (List.filter isUnstakeAllAlphaJob out0)).Sorted (· ≤ ·) ∧
  (keyList (List.filter isAddStakeLimitJob out0)).Sorted (· ≥ ·) ∧
  (keyList (List.filter isAddStakeJob out0)).Sorted (· ≥ ·) ∧
  -- altered order: the bucket sequence is reversed ...
  out1 = List.filter isAddStakeJob out1 ++ (List.filter isAddStakeLimitJob out1 ++ (List.filter isUnstakeAllAlphaJob out1 ++ (List.filter isUnstakeAllJob out1 ++ (List.filter isRemoveStakeJob out1 ++ (List.filter isRemoveStakeLimitJob out1))))) ∧
  -- ... and every bucket's internal coldkey order is reversed
  keyList (List.filter isRemoveStakeLimitJob out1) = (keyList (List.filter isRemoveStakeLimitJob out0)).reverse ∧
  keyList (List.filter isRemoveStakeJob out1) = (keyList (List.filter isRemoveStakeJob out0)).reverse ∧
  keyList (List.filter isUnstakeAllJob out1) = (keyList (List.filter isUnstakeAllJob out0)).reverse ∧
  keyList (List.filter isUnstakeAllAlphaJob out1) = (keyList (List.filter isUnstakeAllAlphaJob out0)).reverse ∧
  keyList (List.filter isAddStakeLimitJob out1) = (keyList (List.filter isAddStakeLimitJob out0)).reverse ∧
  keyList (List.filter isAddStakeJob out1) = (keyList (List.filter isAddStakeJob out0)).reverse ∧
  keyList out1 = (keyList out0).reverse

/-- C2: `do_on_finalize_order` partitions the jobs drained at key
`current_block - 1` into six buckets by kind; the four withdrawal buckets
are sorted ascending by coldkey and the two deposit buckets descending;
the buckets run in the fixed sequence remove-stake-limit, remove-stake,
unstake-all, unstake-all-alpha, add-stake-limit, add-stake; and when the
high bit of the first byte of the previous block hash is set, every
bucket's coldkey order and the bucket sequence itself are both reversed. -/
theorem do_on_finalize_order_ordering (f : Nat → List StakeJob) (current_block h0 h1 : Nat)
    (hb0 : h0.testBit 7 = false) (hb1 : h1.testBit 7 = true) :
    finalize_order_spec f current_block h0 h1 := by
  unfold finalize_order_spec
  have hout0 : do_on_finalize_order f current_block h0 =
      List.insertionSort (relOf (cmpRemoveStakeLimit false)) (List.filter isRemoveStakeLimitJob (f (current_block - 1))) ++ (List.insertionSort (relOf (cmpRemoveStake false)) (List.filter isRemoveStakeJob (f (current_block - 1))) ++ (List.insertionSort (relOf (cmpUnstakeAll false)) (List.filter isUnstakeAllJob (f (current_block - 1))) ++ (List.insertionSort (relOf (cmpUnstakeAllAlpha false)) (List.filter isUnstakeAllAlphaJob (f (current_block - 1))) ++ (List.insertionSort (relOf (cmpAddStakeLimit false)) (List.filter isAddStakeLimitJob (f (current_block - 1))) ++ (List.insertionSort (relOf (cmpAddStake false)) (List.filter isAddStakeJob (f (current_block - 1)))))))) := by
    unfold do_on_finalize_order
    rw [hb0]
    simp
  have hout1 : do_on_finalize_order f current_block h1 =
      List.insertionSort (relOf (cmpAddStake true)) (List.filter isAddStakeJob (f (current_block - 1))) ++ (List.insertionSort (relOf (cmpAddStakeLimit true)) (List.filter isAddStakeLimitJob (f (current_block - 1))) ++ (List.insertionSort (relOf (cmpUnstakeAllAlpha true)) (List.filter isUnstakeAllAlphaJob (f (current_block - 1))) ++ (List.insertionSort (relOf (cmpUnstakeAll true)) (List.filter isUnstakeAllJob (f (current_block - 1))) ++ (List.insertionSort (relOf (cmpRemoveStake true)) (List.filter isRemoveStakeJob (f (current_block - 1))) ++ (List.insertionSort (relOf (cmpRemoveStakeLimit true)) (List.filter isRemoveStakeLimitJob (f (current_block - 1)))))))) := by
    unfold do_on_finalize_order
    rw [hb1]
    simp
  have hf0_1 : List.filter isRemoveStakeLimitJob (do_on_finalize_order f current_block h0) =
      List.insertionSort (relOf (cmpRemoveStakeLimit false)) (List.filter isRemoveStakeLimitJob (f (current_block - 1))) := by
    rw [hout0]
    simp only [List.filter_append]
    rw [filter_sort_self,
      filter_sort_nil (fun x hx => (isRemoveStakeJob_unique x hx).1),
      filter_sort_nil (fun x hx => (isUnstakeAllJob_unique x hx).1),
      filter_sort_nil (fun x hx => (isUnstakeAllAlphaJob_unique x hx).1),
      filter_sort_nil (fun x hx => (isAddStakeLimitJob_unique x hx).1),
      filter_sort_nil (fun x hx => (isAddStakeJob_unique x hx).1)]
    simp
  have hf0_2 : List.filter isRemoveStakeJob (do_on_finalize_order f current_block h0) =
      List.insertionSort (relOf (cmpRemoveStake false)) (List.filter isRemoveStakeJob (f (current_block - 1))) := by
    rw [hout0]
    simp only [List.filter_append]
    rw [filter_sort_nil (fun x hx => (isRemoveStakeLimitJob_unique x hx).1),
      filter_sort_self,
      filter_sort_nil (fun x hx => (isUnstakeAllJob_unique x hx).2.1),
      filter_sort_nil (fun x hx => (isUnstakeAllAlphaJob_unique x hx).2.1),
      filter_sort_nil (fun x hx => (isAddStakeLimitJob_unique x hx).2.1),
      filter_sort_nil (fun x hx => (isAddStakeJob_unique x hx).2.1)]
    simp
  have hf0_3 : List.filter isUnstakeAllJob (do_on_finalize_order f current_block h0) =
      List.insertionSort (relOf (cmpUnstakeAll false)) (List.filter isUnstakeAllJob (f (current_block - 1))) := by
    rw [hout0]
    simp only [List.filter_append]
    rw [filter_sort_nil (fun x hx => (isRemoveStakeLimitJob_unique x hx).2.1),
      filter_sort_nil (fun x hx => (isRemoveStakeJob_unique x hx).2.1),
      filter_sort_self,
      filter_sort_nil (fun x hx => (isUnstakeAllAlphaJob_unique x hx).2.2.1),
      filter_sort_nil (fun x hx => (isAddStakeLimitJob_unique x hx).2.2.1),
      filter_sort_nil (fun x hx => (isAddStakeJob_unique x hx).2.2.1)]
    simp
  have hf0_4 : List.filter isUnstakeAllAlphaJob (do_on_finalize_order f current_block h0) =
      List.insertionSort (relOf (cmpUnstakeAllAlpha false)) (List.filter isUnstakeAllAlphaJob (f (current_block - 1))) := by
    rw [hout0]
    simp only [List.filter_append]
    rw [filter_sort_nil (fun x hx => (isRemoveStakeLimitJob_unique x hx).2.2.1),
      filter_sort_nil (fun x hx => (isRemoveStakeJob_unique x hx).2.2.1),
      filter_sort_nil (fun x hx => (isUnstakeAllJob_unique x hx).2.2.1),
      filter_sort_self,
      filter_sort_nil (fun x hx => (isAddStakeLimitJob_unique x hx).2.2.2.1),
      filter_sort_nil (fun x hx => (isAddStakeJob_unique x hx).2.2.2.1)]
    simp
  have hf0_5 : List.filter isAddStakeLimitJob (do_on_finalize_order f current_block h0) =
      List.insertionSort (relOf (cmpAddStakeLimit false)) (List.filter isAddStakeLimitJob (f (current_block - 1))) := by
    rw [hout0]
    simp only [List.filter_append]
    rw [filter_sort_nil (fun x hx => (isRemoveStakeLimitJob_unique x hx).2.2.2.1),
      filter_sort_nil (fun x hx => (isRemoveStakeJob_unique x hx).2.2.2.1),
      filter_sort_nil (fun x hx => (isUnstakeAllJob_unique x hx).2.2.2.1),
      filter_sort_nil (fun x hx => (isUnstakeAllAlphaJob_unique x hx).2.2.2.1),
      filter_sort_self,
      filter_sort_nil (fun x hx => (isAddStakeJob_unique x hx).2.2.2.2)]
    simp
  have hf0_6 : List.filter isAddStakeJob (do_on_finalize_order f current_block h0) =
      List.insertionSort (relOf (cmpAddStake false)) (List.filter isAddStakeJob (f (current_block - 1))) := by
    rw [hout0]
    simp only [List.filter_append]
    rw [filter_sort_nil (fun x hx => (isRemoveStakeLimitJob_unique x hx).2.2.2.2),
      filter_sort_nil (fun x hx => (isRemoveStakeJob_unique x hx).2.2.2.2),
      filter_sort_nil (fun x hx => (isUnstakeAllJob_unique x hx).2.2.2.2),
      filter_sort_nil (fun x hx => (isUnstakeAllAlphaJob_unique x hx).2.2.2.2),
      filter_sort_nil (fun x hx => (isAddStakeLimitJob_unique x hx).2.2.2.2),
      filter_sort_self]
    simp
  have hf1_1 : List.filter isRemoveStakeLimitJob (do_on_finalize_order f current_block h1) =
      List.insertionSort (relOf (cmpRemoveStakeLimit true)) (List.filter isRemoveStakeLimitJob (f (current_block - 1))) := by
    rw [hout1]
    simp only [List.filter_append]
    rw [filter_sort_nil (fun x hx => (isAddStakeJob_unique x hx).1),
      filter_sort_nil (fun x hx => (isAddStakeLimitJob_unique x hx).1),
      filter_sort_nil (fun x hx => (isUnstakeAllAlphaJob_unique x hx).1),
      filter_sort_nil (fun x hx => (isUnstakeAllJob_unique x hx).1),
      filter_sort_nil (fun x hx => (isRemoveStakeJob_unique x hx).1),
      filter_sort_self]
    simp
  have hf1_2 : List.filter isRemoveStakeJob (do_on_finalize_order f current_block h1) =
      List.insertionSort (relOf (cmpRemoveStake true)) (List.filter isRemoveStakeJob (f (current_block - 1))) := by
    rw [hout1]
    simp only [List.filter_append]
    rw [filter_sort_nil (fun x hx => (isAddStakeJob_unique x hx).2.1),
      filter_sort_nil (fun x hx => (isAddStakeLimitJob_unique x hx).2.1),
      filter_sort_nil (fun x hx => (isUnstakeAllAlphaJob_unique x hx).2.1),
      filter_sort_nil (fun x hx => (isUnstakeAllJob_unique x hx).2.1),
      filter_sort_self,
      filter_sort_nil (fun x hx => (isRemoveStakeLimitJob_unique x hx).1)]
    simp
  have hf1_3 : List.filter isUnstakeAllJob (do_on_finalize_order f current_block h1) =
      List.insertionSort (relOf (cmpUnstakeAll true)) (List.filter isUnstakeAllJob (f (current_block - 1))) := by
    rw [hout1]
    simp only [List.filter_append]
    rw [filter_sort_nil (fun x hx => (isAddStakeJob_unique x hx).2.2.1),
      filter_sort_nil (fun x hx => (isAddStakeLimitJob_unique x hx).2.2.1),
      filter_sort_nil (fun x hx => (isUnstakeAllAlphaJob_unique x hx).2.2.1),
      filter_sort_self,
      filter_sort_nil (fun x hx => (isRemoveStakeJob_unique x hx).2.1),
      filter_sort_nil (fun x hx => (isRemoveStakeLimitJob_unique x hx).2.1)]
    simp
  have hf1_4 : List.filter isUnstakeAllAlphaJob (do_on_finalize_order f current_block h1) =
      List.insertionSort (relOf (cmpUnstakeAllAlpha true)) (List.filter isUnstakeAllAlphaJob (f (current_block - 1))) := by
    rw [hout1]
    simp only [List.filter_append]
    rw [filter_sort_nil (fun x hx => (isAddStakeJob_unique x hx).2.2.2.1),
      filter_sort_nil (fun x hx => (isAddStakeLimitJob_unique x hx).2.2.2.1),
      filter_sort_self,
      filter_sort_nil (fun x hx => (isUnstakeAllJob_unique x hx).2.2.1),
      filter_sort_nil (fun x hx => (isRemoveStakeJob_unique x hx).2.2.1),
      filter_sort_nil (fun x hx => (isRemoveStakeLimitJob_unique x hx).2.2.1)]
    simp
  have hf1_5 : List.filter isAddStakeLimitJob (do_on_finalize_order f current_block h1) =
      List.insertionSort (relOf (cmpAddStakeLimit true)) (List.filter isAddStakeLimitJob (f (current_block - 1))) := by
    rw [hout1]
    simp only [List.filter_append]
    rw [filter_sort_nil (fun x hx => (isAddStakeJob_unique x hx).2.2.2.2),
      filter_sort_self,
      filter_sort_nil (fun x hx => (isUnstakeAllAlphaJob_unique x hx).2.2.2.1),
      filter_sort_nil (fun x hx => (isUnstakeAllJob_unique x hx).2.2.2.1),
      filter_sort_nil (fun x hx => (isRemoveStakeJob_unique x hx).2.2.2.1),
      filter_sort_nil (fun x hx => (isRemoveStakeLimitJob_unique x hx).2.2.2.1)]
    simp
  have hf1_6 : List.filter isAddStakeJob (do_on_finalize_order f current_block h1) =
      List.insertionSort (relOf (cmpAddStake true)) (List.filter isAddStakeJob (f (current_block - 1))) := by
    rw [hout1]
    simp only [List.filter_append]
    rw [filter_sort_self,
      filter_sort_nil (fun x hx => (isAddStakeLimitJob_unique x hx).2.2.2.2),
      filter_sort_nil (fun x hx => (isUnstakeAllAlphaJob_unique x hx).2.2.2.2),
      filter_sort_nil (fun x hx => (isUnstakeAllJob_unique x hx).2.2.2.2),
      filter_sort_nil (fun x hx => (isRemoveStakeJob_unique x hx).2.2.2.2),
      filter_sort_nil (fun x hx => (isRemoveStakeLimitJob_unique x hx).2.2.2.2)]
    simp
  have hk1f : keyList (List.insertionSort (relOf (cmpRemoveStakeLimit false)) (List.filter isRemoveStakeLimitJob (f (current_block - 1)))) =
      List.insertionSort (fun x y : Nat => x ≤ y) (keyList (List.filter isRemoveStakeLimitJob (f (current_block - 1)))) :=
    keyList_sortBucket _ _ _ _ (fun a b ha hb => by
      simpa [ge_iff_le] using rel_cmpRemoveStakeLimit false a b ha hb)
  have hk1t : keyList (List.insertionSort (relOf (cmpRemoveStakeLimit true)) (List.filter isRemoveStakeLimitJob (f (current_block - 1)))) =
      List.insertionSort (fun x y : Nat => x ≥ y) (keyList (List.filter isRemoveStakeLimitJob (f (current_block - 1)))) :=
    keyList_sortBucket _ _ _ _ (fun a b ha hb => by
      simpa [ge_iff_le] using rel_cmpRemoveStakeLimit true a b ha hb)
  have hk2f : keyList (List.insertionSort (relOf (cmpRemoveStake false)) (List.filter isRemoveStakeJob (f (current_block - 1)))) =
      List.insertionSort (fun x y : Nat => x ≤ y) (keyList (List.filter isRemoveStakeJob (f (current_block - 1)))) :=
    keyList_sortBucket _ _ _ _ (fun a b ha hb => by
      simpa [ge_iff_le] using rel_cmpRemoveStake false a b ha hb)
  have hk2t : keyList (List.insertionSort (relOf (cmpRemoveStake true)) (List.filter isRemoveStakeJob (f (current_block - 1)))) =
      List.insertionSort (fun x y : Nat => x ≥ y) (keyList (List.filter isRemoveStakeJob (f (current_block - 1)))) :=
    keyList_sortBucket _ _ _ _ (fun a b ha hb => by
      simpa [ge_iff_le] using rel_cmpRemoveStake true a b ha hb)
  have hk3f : keyList (List.insertionSort (relOf (cmpUnstakeAll false)) (List.filter isUnstakeAllJob (f (current_block - 1)))) =
      List.insertionSort (fun x y : Nat => x ≤ y) (keyList (List.filter isUnstakeAllJob (f (current_block - 1)))) :=
    keyList_sortBucket _ _ _ _ (fun a b ha hb => by
      simpa [ge_iff_le] using rel_cmpUnstakeAll false a b ha hb)
  have hk3t : keyList (List.insertionSort (relOf (cmpUnstakeAll true)) (List.filter isUnstakeAllJob (f (current_block - 1)))) =
      List.insertionSort (fun x y : Nat => x ≥ y) (keyList (List.filter isUnstakeAllJob (f (current_block - 1)))) :=
    keyList_sortBucket _ _ _ _ (fun a b ha hb => by
      simpa [ge_iff_le] using rel_cmpUnstakeAll true a b ha hb)
  have hk4f : keyList (List.insertionSort (relOf (cmpUnstakeAllAlpha false)) (List.filter isUnstakeAllAlphaJob (f (current_block - 1)))) =
      List.insertionSort (fun x y : Nat => x ≤ y) (keyList (List.filter isUnstakeAllAlphaJob (f (current_block - 1)))) :=
    keyList_sortBucket _ _ _ _ (fun a b ha hb => by
      simpa [ge_iff_le] using rel_cmpUnstakeAllAlpha false a b ha hb)
  have hk4t : keyList (List.insertionSort (relOf (cmpUnstakeAllAlpha true)) (List.filter isUnstakeAllAlphaJob (f (current_block - 1)))) =
      List.insertionSort (fun x y : Nat => x ≥ y) (keyList (List.filter isUnstakeAllAlphaJob (f (current_block - 1)))) :=
    keyList_sortBucket _ _ _ _ (fun a b ha hb => by
      simpa [ge_iff_le] using rel_cmpUnstakeAllAlpha true a b ha hb)
  have hk5f : keyList (List.insertionSort (relOf (cmpAddStakeLimit false)) (List.filter isAddStakeLimitJob (f (current_block - 1)))) =
      List.insertionSort (fun x y : Nat => x ≥ y) (keyList (List.filter isAddStakeLimitJob (f (current_block - 1)))) :=
    keyList_sortBucket _ _ _ _ (fun a b ha hb => by
      simpa [ge_iff_le] using rel_cmpAddStakeLimit false a b ha hb)
  have hk5t : keyList (List.insertionSort (relOf (cmpAddStakeLimit true)) (List.filter isAddStakeLimitJob (f (current_block - 1)))) =
      List.insertionSort (fun x y : Nat => x ≤ y) (keyList (List.filter isAddStakeLimitJob (f (current_block - 1)))) :=
    keyList_sortBucket _ _ _ _ (fun a b ha hb => by
      simpa [ge_iff_le] using rel_cmpAddStakeLimit true a b ha hb)
  have hk6f : keyList (List.insertionSort (relOf (cmpAddStake false)) (List.filter isAddStakeJob (f (current_block - 1)))) =
      List.insertionSort (fun x y : Nat => x ≥ y) (keyList (List.filter isAddStakeJob (f (current_block - 1)))) :=
    keyList_sortBucket _ _ _ _ (fun a b ha hb => by
      simpa [ge_iff_le] using rel_cmpAddStake false a b ha hb)
  have hk6t : keyList (List.insertionSort (relOf (cmpAddStake true)) (List.filter isAddStakeJob (f (current_block - 1)))) =
      List.insertionSort (fun x y : Nat => x ≤ y) (keyList (List.filter isAddStakeJob (f (current_block - 1)))) :=
    keyList_sortBucket _ _ _ _ (fun a b ha hb => by
      simpa [ge_iff_le] using rel_cmpAddStake true a b ha hb)
  have hrevb1 : keyList (List.insertionSort (relOf (cmpRemoveStakeLimit true)) (List.filter isRemoveStakeLimitJob (f (current_block - 1)))) = (keyList (List.insertionSort (relOf (cmpRemoveStakeLimit false)) (List.filter isRemoveStakeLimitJob (f (current_block - 1))))).reverse := by
    rw [hk1t, hk1f]
    exact insertionSort_ge_eq_reverse _
  have hrevb2 : keyList (List.insertionSort (relOf (cmpRemoveStake true)) (List.filter isRemoveStakeJob (f (current_block - 1)))) = (keyList (List.insertionSort (relOf (cmpRemoveStake false)) (List.filter isRemoveStakeJob (f (current_block - 1))))).reverse := by
    rw [hk2t, hk2f]
    exact insertionSort_ge_eq_reverse _
  have hrevb3 : keyList (List.insertionSort (relOf (cmpUnstakeAll true)) (List.filter isUnstakeAllJob (f (current_block - 1)))) = (keyList (List.insertionSort (relOf (cmpUnstakeAll false)) (List.filter isUnstakeAllJob (f (current_block - 1))))).reverse := by
    rw [hk3t, hk3f]
    exact insertionSort_ge_eq_reverse _
  have hrevb4 : keyList (List.insertionSort (relOf (cmpUnstakeAllAlpha true)) (List.filter isUnstakeAllAlphaJob (f (current_block - 1)))) = (keyList (List.insertionSort (relOf (cmpUnstakeAllAlpha false)) (List.filter isUnstakeAllAlphaJob (f (current_block - 1))))).reverse := by
    rw [hk4t, hk4f]
    exact insertionSort_ge_eq_reverse _
  have hrevb5 : keyList (List.insertionSort (relOf (cmpAddStakeLimit true)) (List.filter isAddStakeLimitJob (f (current_block - 1)))) = (keyList (List.insertionSort (relOf (cmpAddStakeLimit false)) (List.filter isAddStakeLimitJob (f (current_block - 1))))).reverse := by
    rw [hk5t, hk5f]
    exact insertionSort_le_eq_reverse _
  have hrevb6 : keyList (List.insertionSort (relOf (cmpAddStake true)) (List.filter isAddStakeJob (f (current_block - 1)))) = (keyList (List.insertionSort (relOf (cmpAddStake false)) (List.filter isAddStakeJob (f (current_block - 1))))).reverse := by
    rw [hk6t, hk6f]
    exact insertionSort_le_eq_reverse _
  have hperm0 : (do_on_finalize_order f current_block h0).Perm (f (current_block - 1)) := by
    rw [hout0]
    refine List.Perm.trans ?_ (perm_six_filter (f (current_block - 1))).symm
    exact List.Perm.append (List.perm_insertionSort _ _) (List.Perm.append (List.perm_insertionSort _ _) (List.Perm.append (List.perm_insertionSort _ _) (List.Perm.append (List.perm_insertionSort _ _) (List.Perm.append (List.perm_insertionSort _ _) (List.perm_insertionSort _ _)))))
  have hperm1 : (do_on_finalize_order f current_block h1).Perm (f (current_block - 1)) := by
    rw [hout1]
    refine List.Perm.trans ?_ (perm_six_filter_rev (f (current_block - 1))).symm
    exact List.Perm.append (List.perm_insertionSort _ _) (List.Perm.append (List.perm_insertionSort _ _) (List.Perm.append (List.perm_insertionSort _ _) (List.Perm.append (List.perm_insertionSort _ _) (List.Perm.append (List.perm_insertionSort _ _) (List.perm_insertionSort _ _)))))
  have hseq0 : do_on_finalize_order f current_block h0 = List.filter isRemoveStakeLimitJob (do_on_finalize_order f current_block h0) ++ (List.filter isRemoveStakeJob (do_on_finalize_order f current_block h0) ++ (List.filter isUnstakeAllJob (do_on_finalize_order f current_block h0) ++ (List.filter isUnstakeAllAlphaJob (do_on_finalize_order f current_block h0) ++ (List.filter isAddStakeLimitJob (do_on_finalize_order f current_block h0) ++ (List.filter isAddStakeJob (do_on_finalize_order f current_block h0)))))) := by
    rw [hf0_1, hf0_2, hf0_3, hf0_4, hf0_5, hf0_6]
    exact hout0
  have hseq1 : do_on_finalize_order f current_block h1 = List.filter isAddStakeJob (do_on_finalize_order f current_block h1) ++ (List.filter isAddStakeLimitJob (do_on_finalize_order f current_block h1) ++ (List.filter isUnstakeAllAlphaJob (do_on_finalize_order f current_block h1) ++ (List.filter isUnstakeAllJob (do_on_finalize_order f current_block h1) ++ (List.filter isRemoveStakeJob (do_on_finalize_order f current_block h1) ++ (List.filter isRemoveStakeLimitJob (do_on_finalize_order f current_block h1)))))) := by
    rw [hf1_6, hf1_5, hf1_4, hf1_3, hf1_2, hf1_1]
    exact hout1
  have hs1 : (keyList (List.filter isRemoveStakeLimitJob (do_on_finalize_order f current_block h0))).Sorted (· ≤ ·) := by
    rw [hf0_1, hk1f]
    exact List.sorted_insertionSort _ _
  have hs2 : (keyList (List.filter isRemoveStakeJob (do_on_finalize_order f current_block h0))).Sorted (· ≤ ·) := by
    rw [hf0_2, hk2f]
    exact List.sorted_insertionSort _ _
  have hs3 : (keyList (List.filter isUnstakeAllJob (do_on_finalize_order f current_block h0))).Sorted (· ≤ ·) := by
    rw [hf0_3, hk3f]
    exact List.sorted_insertionSort _ _
  have hs4 : (keyList (List.filter isUnstakeAllAlphaJob (do_on_finalize_order f current_block h0))).Sorted (· ≤ ·) := by
    rw [hf0_4, hk4f]
    exact List.sorted_insertionSort _ _
  have hs5 : (keyList (List.filter isAddStakeLimitJob (do_on_finalize_order f current_block h0))).Sorted (· ≥ ·) := by
    rw [hf0_5, hk5f]
    exact List.sorted_insertionSort _ _
  have hs6 : (keyList (List.filter isAddStakeJob (do_on_finalize_order f current_block h0))).Sorted (· ≥ ·) := by
    rw [hf0_6, hk6f]
    exact List.sorted_insertionSort _ _
  have hr1 : keyList (List.filter isRemoveStakeLimitJob (do_on_finalize_order f current_block h1))
      = (keyList (List.filter isRemoveStakeLimitJob (do_on_finalize_order f current_block h0))).reverse := by
    rw [hf1_1, hf0_1]
    exact hrevb1
  have hr2 : keyList (List.filter isRemoveStakeJob (do_on_finalize_order f current_block h1))
      = (keyList (List.filter isRemoveStakeJob (do_on_finalize_order f current_block h0))).reverse := by
    rw [hf1_2, hf0_2]
    exact hrevb2
  have hr3 : keyList (List.filter isUnstakeAllJob (do_on_finalize_order f current_block h1))
      = (keyList (List.filter isUnstakeAllJob (do_on_finalize_order f current_block h0))).reverse := by
    rw [hf1_3, hf0_3]
    exact hrevb3
  have hr4 : keyList (List.filter isUnstakeAllAlphaJob (do_on_finalize_order f current_block h1))
      = (keyList (List.filter isUnstakeAllAlphaJob (do_on_finalize_order f current_block h0))).reverse := by
    rw [hf1_4, hf0_4]
    exact hrevb4
  have hr5 : keyList (List.filter isAddStakeLimitJob (do_on_finalize_order f current_block h1))
      = (keyList (List.filter isAddStakeLimitJob (do_on_finalize_order f current_block h0))).reverse := by
    rw [hf1_5, hf0_5]
    exact hrevb5
  have hr6 : keyList (List.filter isAddStakeJob (do_on_finalize_order f current_block h1))
      = (keyList (List.filter isAddStakeJob (do_on_finalize_order f current_block h0))).reverse := by
    rw [hf1_6, hf0_6]
    exact hrevb6
  have hrev : keyList (do_on_finalize_order f current_block h1) = (keyList (do_on_finalize_order f current_block h0)).reverse := by
    rw [hout0, hout1]
    simp only [keyList_append]
    rw [hrevb1, hrevb2, hrevb3, hrevb4, hrevb5, hrevb6]
    simp [List.reverse_append, List.append_assoc]
  exact ⟨hperm0, hperm1, hseq0, hs1, hs2, hs3, hs4, hs5, hs6, hseq1,
    hr1, hr2, hr3, hr4, hr5, hr6, hrev⟩

/- Concrete drained jobs for the C2 witness. -/
def c2jobs : Nat → List StakeJob := fun b =>
  if b = 4 then
    [StakeJob.addStake 0 1 1 10, StakeJob.removeStake 2 0 1 5, StakeJob.addStake 0 3 1 7,
     StakeJob.unstakeAll 0 4, StakeJob.removeStakeLimit 0 5 1 2 9 false,
     StakeJob.unstakeAllAlpha 0 6, StakeJob.addStakeLimit 0 7 1 3 8 true,
     StakeJob.removeStake 1 0 1 6]
  else []

theorem do_on_finalize_order_ordering_witness :
    (0 : Nat).testBit 7 = false ∧ (128 : Nat).testBit 7 = true ∧
    finalize_order_spec c2jobs 5 0 128 :=
  ⟨by decide, by decide, do_on_finalize_order_ordering c2jobs 5 0 128 (by decide) (by decide)⟩

end Subtensor
